import Mathlib

/-!
Verification development for the moveboxtracker record/storage layer
(src/moveboxtracker/db.py).  The Python module is shallowly embedded:
SQLite values become the `Value` type, Python dicts become ordered
association lists (`Dict`), the database file becomes `DbState`, and each
method of `MoveDbRecord` and its subclasses becomes an executable Lean
function threading the state explicitly.  Errors raised by the Python code
(RuntimeError, sqlite3 constraint failures, dateutil parse errors, ...)
are modelled by `Except DbError`; because each sub-operation commits its
own transaction, errors carry the state reached so far.
-/

namespace MBT

/-- A SQLite storage value: INTEGER, TEXT (binary digests are modelled as
text), or NULL (Python None). -/
inductive Value where
  | int : Int → Value
  | str : String → Value
  | null : Value
deriving DecidableEq, Repr

/-- A Python dict with string keys, modelled as an insertion-ordered
association list with unique keys (maintained by `dictSet`). -/
abbrev Dict := List (String × Value)

/-- Python dict lookup `d[k]` / `d.get(k)`. -/
def dictFind (d : Dict) (k : String) : Option Value :=
  match d with
  | [] => none
  | (k', v) :: rest => if k' = k then some v else dictFind rest k

/-- Python dict assignment `d[k] = v`: replaces in place, else appends. -/
def dictSet (d : Dict) (k : String) (v : Value) : Dict :=
  match d with
  | [] => [(k, v)]
  | (k', v') :: rest => if k' = k then (k, v) :: rest else (k', v') :: dictSet rest k v

/-- Python `list(d.keys())`. -/
def dictKeys (d : Dict) : List String := d.map (fun kv => kv.1)

/-- Python `k in d`. -/
def dictHas (d : Dict) (k : String) : Bool := (dictFind d k).isSome

/-- The nine record types of DB_CLASS_TO_TABLE / MBT_SCHEMA. -/
inductive RecType where
  | location | room | uriUser | image | batchMove | movingBox | item | boxScan | moveProject
deriving DecidableEq, Repr

/-- SQL table name for a record type (DB_CLASS_TO_TABLE). -/
def table_name : RecType → String
  | .location => "location"
  | .room => "room"
  | .uriUser => "uri_user"
  | .image => "image"
  | .batchMove => "batch_move"
  | .movingBox => "moving_box"
  | .item => "item"
  | .boxScan => "box_scan"
  | .moveProject => "move_project"

/-- Column list of each table, from the CREATE TABLE statements in
MBT_SCHEMA (excluding the implicit rowid of move_project). -/
def columns : RecType → List String
  | .location => ["id", "name"]
  | .room => ["id", "name", "color"]
  | .uriUser => ["id", "name"]
  | .image => ["id", "image_file", "hash", "mimetype", "encoding", "description", "timestamp"]
  | .batchMove => ["id", "timestamp", "location"]
  | .movingBox => ["id", "location", "info", "room", "user", "image"]
  | .item => ["id", "box", "description", "image"]
  | .boxScan => ["id", "box", "batch", "user", "timestamp"]
  | .moveProject => ["primary_user", "title", "found_contact"]

/-- NOT NULL columns other than the primary key, from MBT_SCHEMA. -/
def notNullCols : RecType → List String
  | .location => ["name"]
  | .room => ["name", "color"]
  | .uriUser => ["name"]
  | .image => ["image_file", "hash", "timestamp"]
  | .batchMove => ["timestamp", "location"]
  | .movingBox => ["location", "info", "room", "user"]
  | .item => ["box", "description"]
  | .boxScan => ["box", "batch", "user", "timestamp"]
  | .moveProject => ["primary_user", "title", "found_contact"]

/-- UNIQUE columns, from MBT_SCHEMA. -/
def uniqueCols : RecType → List String
  | .location => ["name"]
  | .room => ["name"]
  | .uriUser => ["name"]
  | .image => ["image_file", "hash"]
  | _ => []

/-- Foreign-key columns and their referenced tables, from the REFERENCES
clauses in MBT_SCHEMA (PRAGMA foreign_keys=ON is set at init). -/
def fkCols : RecType → List (String × RecType)
  | .batchMove => [("location", .location)]
  | .movingBox => [("location", .location), ("room", .room), ("user", .uriUser), ("image", .image)]
  | .item => [("box", .movingBox), ("image", .image)]
  | .boxScan => [("box", .movingBox), ("batch", .batchMove), ("user", .uriUser)]
  | .moveProject => [("primary_user", .uriUser)]
  | _ => []

/-- Columns with INTEGER affinity (id, foreign keys): SQLite converts
all-digit text bound to these columns to integers. -/
def intCols (rt : RecType) : List String :=
  (if rt = .moveProject then [] else ["id"]) ++ (fkCols rt).map (fun c => c.1)

/-- Columns carrying the schema default
strftime of the current UTC time. -/
def defaultTsCols : RecType → List String
  | .image => ["timestamp"]
  | .batchMove => ["timestamp"]
  | .boxScan => ["timestamp"]
  | _ => []

/-- Per-field metadata (field_data in each MoveDbRecord subclass).
`generate` names the generation rule; `hasPrompt` records whether a
"prompt" attribute is present. -/
inductive InterpKind where
  | image | color | timestamp
deriving DecidableEq, Repr

inductive GenRule where
  | primaryUser   -- MoveDbRecord.gen_primary_user
  | genHash       -- MoveDbImage.gen_hash (forward reference as str)
  | genMimetype   -- MoveDbImage.gen_mimetype
deriving DecidableEq, Repr

structure FieldSpec where
  required : Bool := false
  references : Option RecType := none
  interpolate : Option InterpKind := none
  generate : Option GenRule := none
  hasPrompt : Bool := false
deriving DecidableEq, Repr

/-- field_data tables, transcribed per class.  A key absent from the table
has no metadata (`none` here means the field itself is undeclared). -/
def fieldSpec : RecType → String → Option FieldSpec
  | .location, "id" => some {}
  | .location, "name" => some { required := true, hasPrompt := true }
  | .room, "id" => some {}
  | .room, "name" => some { required := true, hasPrompt := true }
  | .room, "color" => some { required := true, hasPrompt := true, interpolate := some .color }
  | .uriUser, "id" => some {}
  | .uriUser, "name" => some { required := true, hasPrompt := true }
  | .image, "id" => some {}
  | .image, "image_file" =>
      some { required := true, hasPrompt := true, interpolate := some .image }
  | .image, "hash" => some { required := true, generate := some .genHash }
  | .image, "mimetype" => some { generate := some .genMimetype }
  | .image, "encoding" => some {}
  | .image, "description" => some { hasPrompt := true }
  | .image, "timestamp" => some { interpolate := some .timestamp }
  | .batchMove, "id" => some {}
  | .batchMove, "timestamp" => some { interpolate := some .timestamp }
  | .batchMove, "location" =>
      some { required := true, references := some .location, hasPrompt := true }
  | .movingBox, "id" => some {}
  | .movingBox, "location" =>
      some { required := true, references := some .location, hasPrompt := true }
  | .movingBox, "info" => some { required := true, hasPrompt := true }
  | .movingBox, "room" =>
      some { required := true, references := some .room, hasPrompt := true }
  | .movingBox, "user" =>
      some { required := true, references := some .uriUser, generate := some .primaryUser }
  | .movingBox, "image" => some { references := some .image }
  | .item, "id" => some {}
  | .item, "box" => some { required := true, references := some .movingBox }
  | .item, "description" => some { required := true, hasPrompt := true }
  | .item, "image" => some { references := some .image }
  | .boxScan, "id" => some {}
  | .boxScan, "box" => some { required := true, references := some .movingBox }
  | .boxScan, "batch" => some { required := true, references := some .batchMove }
  | .boxScan, "user" =>
      some { required := true, references := some .uriUser, generate := some .primaryUser }
  | .boxScan, "timestamp" => some { interpolate := some .timestamp }
  | .moveProject, "primary_user" =>
      some { required := true, references := some .uriUser, hasPrompt := true }
  | .moveProject, "title" => some { required := true, hasPrompt := true }
  | .moveProject, "found_contact" => some { required := true, hasPrompt := true }
  | _, _ => none

/-- Declared field names in field_data order (MoveDbRecord.fields). -/
def fields : RecType → List String
  | .location => ["id", "name"]
  | .room => ["id", "name", "color"]
  | .uriUser => ["id", "name"]
  | .image => ["id", "image_file", "hash", "mimetype", "encoding", "description", "timestamp"]
  | .batchMove => ["id", "timestamp", "location"]
  | .movingBox => ["id", "location", "info", "room", "user", "image"]
  | .item => ["id", "box", "description", "image"]
  | .boxScan => ["id", "box", "batch", "user", "timestamp"]
  | .moveProject => ["primary_user", "title", "found_contact"]

/-- MoveDbRecord.required_fields: the declared fields marked required. -/
def required_fields (rt : RecType) : List String :=
  (fields rt).filter (fun k => ((fieldSpec rt k).map (fun s => s.required)).getD false)

/-- MoveDbRecord.check_allowed_fields: keys of data not among declared
fields, in data order. -/
def check_allowed_fields (rt : RecType) (data : Dict) : List String :=
  (dictKeys data).filter (fun k => decide (k ∉ fields rt))

/-- MoveDbRecord.check_missing_fields: required fields absent from data. -/
def check_missing_fields (rt : RecType) (data : Dict) : List String :=
  (required_fields rt).filter (fun k => !dictHas data k)

/-! ## SQL LIKE

kv_search issues `SELECT id FROM t WHERE col LIKE :val`.  SQLite's default
LIKE is case-insensitive for ASCII letters and treats `%` (any sequence)
and `_` (any single character) as wildcards; no ESCAPE clause is set. -/

/-- ASCII lower-casing as applied by SQLite's default LIKE. -/
def lowerChar (c : Char) : Char :=
  if 'A' ≤ c ∧ c ≤ 'Z' then Char.ofNat (c.toNat + 32) else c

/-- LIKE matching of a pattern against a subject, by backtracking.  The
recursion is bounded by fuel so that it stays structural; every step
shortens pattern + subject, so `sqlLike` below always supplies enough. -/
def likeFuel : Nat → List Char → List Char → Bool
  | 0, _, _ => false
  | _ + 1, [], s => s.isEmpty
  | f + 1, p :: ps, [] => p = '%' && likeFuel f ps []
  | f + 1, p :: ps, c :: cs =>
    if p = '%' then likeFuel f ps (c :: cs) || likeFuel f (p :: ps) cs
    else if p = '_' then likeFuel f ps cs
    else lowerChar p == lowerChar c && likeFuel f ps cs

/-- `subject LIKE pattern` for strings. -/
def sqlLike (pattern subject : String) : Bool :=
  likeFuel (pattern.length + subject.length + 1) pattern.data subject.data

/-! ## External collaborator models

The colorlookup, hashlib and mimetypes libraries are external to the
repository; small executable models capture the behavior the storage
layer relies on. -/

/-- Model of colorlookup.Color: a finite catalog of recognized color
names mapped to their canonical spelling.  `Color(name).name` looks the
(case-normalized) name up and raises ValueError when unrecognized. -/
def colorCatalog : List (String × String) :=
  [("blue", "Blue"), ("red", "Red"), ("green", "Green"), ("white", "White"),
   ("black", "Black"), ("yellow", "Yellow"), ("orange", "Orange"), ("purple", "Purple")]

def strLower (s : String) : String := ⟨s.data.map lowerChar⟩

/-- Canonical color name, or none when colorlookup raises. -/
def colorLookup (name : String) : Option String :=
  match colorCatalog.find? (fun kv => kv.1 = strLower name) with
  | some kv => some kv.2
  | none => none

/-- Model of the SHA-256 content digest used by MoveDbImage._image_hash:
a deterministic function of the file content (equal content gives equal
digest, which is the property content addressing relies on).  Rendered in
decimal so the digest text contains no LIKE wildcards. -/
def digestOf (content : String) : String :=
  "sha" ++ toString (content.data.foldl (fun a c => (a * 131 + c.toNat) % 1000000007) 7)

/-- Suffix test on strings via their character lists. -/
def strEndsWith (s suf : String) : Bool :=
  decide (suf.data.length ≤ s.data.length) &&
    decide (s.data.drop (s.data.length - suf.data.length) = suf.data)

/-- Model of mimetypes.guess_type (extension based): mimetype and
encoding, either possibly None. -/
def guessType (path : String) : Option String × Option String :=
  if strEndsWith path ".jpg" ∨ strEndsWith path ".jpeg" then (some "image/jpeg", none)
  else if strEndsWith path ".png" then (some "image/png", none)
  else if strEndsWith path ".gif" then (some "image/gif", none)
  else (none, none)

/-- The characters after the last slash. -/
def baseNameL : List Char → List Char → List Char
  | acc, [] => acc
  | _, '/' :: rest => baseNameL [] rest
  | acc, c :: rest => baseNameL (acc ++ [c]) rest

/-- Path(p).name: the final path component. -/
def baseName (p : String) : String := ⟨baseNameL [] p.data⟩

/-! ## Timestamps

MoveDbRecord._interpolate_timestamp parses with dateutil.parser.isoparse
(modelled on the core ISO-8601 date-time grammar), treats a naive result
as local time (datetime.astimezone semantics), converts to UTC and
formats with strftime.  Civil-calendar arithmetic follows the standard
days-from-civil / civil-from-days algorithms. -/

structure TS where
  y : Nat
  m : Nat
  d : Nat
  hh : Nat
  mi : Nat
  ss : Nat
  /-- UTC offset in minutes, none when the input had no timezone. -/
  off : Option Int
deriving DecidableEq, Repr

/-- Days since 1970-01-01 of a civil date. -/
def daysFromCivil (y m d : Int) : Int :=
  let y' := if m ≤ 2 then y - 1 else y
  let era := (if 0 ≤ y' then y' else y' - 399) / 400
  let yoe := y' - era * 400
  let mp := (m + 9) % 12
  let doy := (153 * mp + 2) / 5 + d - 1
  let doe := yoe * 365 + yoe / 4 - yoe / 100 + doy
  era * 146097 + doe - 719468

/-- Civil date of a count of days since 1970-01-01. -/
def civilFromDays (z : Int) : Int × Int × Int :=
  let z' := z + 719468
  let era := (if 0 ≤ z' then z' else z' - 146096) / 146097
  let doe := z' - era * 146097
  let yoe := (doe - doe / 1460 + doe / 36524 - doe / 146096) / 365
  let y := yoe + era * 400
  let doy := doe - (365 * yoe + yoe / 4 - yoe / 100)
  let mp := (5 * doy + 2) / 153
  let d := doy - (153 * mp + 2) / 5 + 1
  let m := if mp < 10 then mp + 3 else mp - 9
  (if m ≤ 2 then y + 1 else y, m, d)

/-- Seconds since the epoch of a parsed timestamp interpreted at the
given UTC offset (minutes east). -/
def tsToEpoch (t : TS) (offMinutes : Int) : Int :=
  daysFromCivil (Int.ofNat t.y) (Int.ofNat t.m) (Int.ofNat t.d) * 86400
    + Int.ofNat t.hh * 3600 + Int.ofNat t.mi * 60 + Int.ofNat t.ss - offMinutes * 60

def pad2 (n : Int) : String :=
  if n < 10 then "0" ++ toString n else toString n

/-- strftime of an epoch-seconds instant in UTC. -/
def formatEpoch (secs : Int) : String :=
  let days := secs.ediv 86400
  let sod := secs.emod 86400
  let ymd := civilFromDays days
  toString ymd.1 ++ "-" ++ pad2 ymd.2.1 ++ "-" ++ pad2 ymd.2.2 ++ " "
    ++ pad2 (sod / 3600) ++ ":" ++ pad2 (sod / 60 % 60) ++ ":" ++ pad2 (sod % 60) ++ "Z"

def isDigitL (c : Char) : Bool := '0' ≤ c && c ≤ '9'

def digitsToNat (cs : List Char) : Nat :=
  cs.foldl (fun a c => a * 10 + (c.toNat - 48)) 0

/-- Take exactly n digits from the front; return their value and rest. -/
def takeDigits (n : Nat) (cs : List Char) : Option (Nat × List Char) :=
  let pre := cs.take n
  if pre.length = n ∧ pre.all isDigitL then some (digitsToNat pre, cs.drop n) else none

def isLeap (y : Nat) : Bool := y % 4 = 0 && (y % 100 ≠ 0 || y % 400 = 0)

def daysInMonth (y m : Nat) : Nat :=
  if m = 2 then (if isLeap y then 29 else 28)
  else if m = 4 ∨ m = 6 ∨ m = 9 ∨ m = 11 then 30 else 31

/-- Parse the timezone suffix: end of input (naive), Z, or +-HH:MM. -/
def parseOffset (cs : List Char) : Option (Option Int) :=
  match cs with
  | [] => some none
  | ['Z'] => some (some 0)
  | sign :: rest =>
    if sign = '+' ∨ sign = '-' then
      match takeDigits 2 rest with
      | some (oh, r1) =>
        match r1 with
        | ':' :: r2 =>
          match takeDigits 2 r2 with
          | some (om, []) =>
            if oh ≤ 23 ∧ om ≤ 59 then
              let mins : Int := Int.ofNat (oh * 60 + om)
              some (some (if sign = '-' then -mins else mins))
            else none
          | _ => none
        | _ => none
      | none => none
    else none

/-- Model of dateutil.parser.isoparse on the ISO-8601 date-time core
grammar YYYY-MM-DDTHH:MM:SS with optional Z or +-HH:MM suffix. -/
def parseIso (s : String) : Option TS :=
  match takeDigits 4 s.data with
  | some (y, '-' :: r1) =>
    match takeDigits 2 r1 with
    | some (m, '-' :: r2) =>
      match takeDigits 2 r2 with
      | some (d, 'T' :: r3) =>
        match takeDigits 2 r3 with
        | some (hh, ':' :: r4) =>
          match takeDigits 2 r4 with
          | some (mi, ':' :: r5) =>
            match takeDigits 2 r5 with
            | some (ss, r6) =>
              match parseOffset r6 with
              | some off =>
                if 1 ≤ m ∧ m ≤ 12 ∧ 1 ≤ d ∧ d ≤ daysInMonth y m
                    ∧ hh ≤ 23 ∧ mi ≤ 59 ∧ ss ≤ 59 then
                  some ⟨y, m, d, hh, mi, ss, off⟩
                else none
              | none => none
            | _ => none
          | _ => none
        | _ => none
      | _ => none
    | _ => none
  | _ => none

/-! ## Database state -/

/-- One table row: rowid plus the non-id column values. -/
structure Row where
  id : Int
  fields : Dict
deriving DecidableEq, Repr

/-- The SQLite database file plus the companion image directory
(`imgdir` lists the symlink names placed there). -/
structure DbState where
  location : List Row := []
  room : List Row := []
  uriUser : List Row := []
  image : List Row := []
  batchMove : List Row := []
  movingBox : List Row := []
  item : List Row := []
  boxScan : List Row := []
  moveProject : List Row := []
  imgdir : List String := []
deriving DecidableEq, Repr

def tableOf (st : DbState) : RecType → List Row
  | .location => st.location
  | .room => st.room
  | .uriUser => st.uriUser
  | .image => st.image
  | .batchMove => st.batchMove
  | .movingBox => st.movingBox
  | .item => st.item
  | .boxScan => st.boxScan
  | .moveProject => st.moveProject

def setTable (st : DbState) : RecType → List Row → DbState
  | .location, rows => { st with location := rows }
  | .room, rows => { st with room := rows }
  | .uriUser, rows => { st with uriUser := rows }
  | .image, rows => { st with image := rows }
  | .batchMove, rows => { st with batchMove := rows }
  | .movingBox, rows => { st with movingBox := rows }
  | .item, rows => { st with item := rows }
  | .boxScan, rows => { st with boxScan := rows }
  | .moveProject, rows => { st with moveProject := rows }

/-- A fresh database right after schema DDL, before any record. -/
def initState : DbState := {}

/-- Process environment: the external filesystem of source image files
(path to byte content), the current time, and the local timezone offset
(minutes east of UTC, tzlocal's LOCAL_TZ). -/
structure Env where
  srcFS : List (String × String) := []
  now : Int := 0
  localOffset : Int := 0

/-- External UI collaborator (ui_callback.UICallback): the prompt
callback's response given the table name and the prompted field names. -/
structure UIModel where
  promptResp : String → List String → Dict

/-- ui_cb: None means no UI is attached. -/
abbrev UI := Option UIModel

/-- A UI whose prompt callback returns no values. -/
def emptyUI : UIModel := ⟨fun _ _ => []⟩

def envRead (env : Env) (p : String) : Option String :=
  (env.srcFS.find? (fun kv => kv.1 = p)).map (fun kv => kv.2)

def envExists (env : Env) (p : String) : Bool := (envRead env p).isSome

/-! ## Errors

Every exception the Python layer can raise, plus SQLite constraint
failures surfaced through sqlite3.  `outOfFuel` is an artifact of the
bounded-recursion embedding and never occurs at adequate fuel. -/

inductive DbError where
  | invalidField (invalid : List String)
  | missingFields (missing : List String)
  | emptyRecord
  | uiUnavailable
  | invalidColor (s : String)
  | invalidTimestamp (s : String)
  | imageReadError (p : String)
  | symlinkError (p : String)
  | keyError (k : String)
  | typeError
  | attributeError (rt : RecType)
  | genError (k : String)
  | notNullViolation (col : String)
  | uniqueViolation (col : String)
  | fkViolation
  | datatypeMismatch
  | noId (table : String)
  | sqlInsertFailed
  | sqlUpdateFailed
  | sqlDeleteFailed
  | sqlSyntaxError
  | sqlParamError
  | outOfFuel
deriving DecidableEq, Repr

instance {ε α : Type} [DecidableEq ε] [DecidableEq α] : DecidableEq (Except ε α) :=
  fun x y =>
  match x, y with
  | .error a, .error b =>
    if h : a = b then .isTrue (by rw [h]) else .isFalse (by simp [h])
  | .ok a, .ok b =>
    if h : a = b then .isTrue (by rw [h]) else .isFalse (by simp [h])
  | .error _, .ok _ => .isFalse (by simp)
  | .ok _, .error _ => .isFalse (by simp)

/-- Sequencing for state-threading computations: errors carry the state
reached so far (each sub-operation commits its own transaction). -/
def bindE {α β : Type} (r : Except DbError α × DbState)
    (f : α → DbState → Except DbError β × DbState) : Except DbError β × DbState :=
  match r with
  | (.error e, st) => (.error e, st)
  | (.ok a, st) => f a st

/-- Post-processing of a state-threading result that leaves the reached
state untouched. -/
def mapE {α β : Type} (r : Except DbError α × DbState) (g : α → Except DbError β) :
    Except DbError β × DbState :=
  (match r.1 with
   | .error e => .error e
   | .ok a => g a, r.2)

/-! ## Value normalization and constraint checking -/

/-- A nonempty all-digit string (re.fullmatch of one or more digits). -/
def allDigits (s : String) : Bool := !s.data.isEmpty && s.data.all isDigitL

/-- SQLite INTEGER affinity: all-digit text bound to an integer column is
stored as an integer. -/
def affinity (v : Value) : Value :=
  match v with
  | .str s => if allDigits s then .int (Int.ofNat (digitsToNat s.data)) else .str s
  | v => v

def applyAffinity (rt : RecType) (data : Dict) : Dict :=
  data.map (fun kv => if kv.1 ∈ intCols rt then (kv.1, affinity kv.2) else kv)

def maxId (rows : List Row) : Int := rows.foldl (fun a r => max a r.id) 0

def optVal : Option String → Value
  | some s => .str s
  | none => .null

/-- The stored row fields: each non-id column from data, or the schema
default (current UTC time for the timestamp defaults), or NULL. -/
def buildFields (env : Env) (rt : RecType) (data : Dict) : Dict :=
  ((columns rt).filter (fun c => c ≠ "id")).map (fun col =>
    (col, match dictFind data col with
          | some v => v
          | none =>
            if col ∈ defaultTsCols rt then .str (formatEpoch env.now) else .null))

/-- First NOT NULL column holding NULL, if any. -/
def nnViol (rt : RecType) (flds : Dict) : Option String :=
  (notNullCols rt).find? (fun col => dictFind flds col = some Value.null)

/-- First UNIQUE column whose (non-null) value already occurs among the
given rows, if any. -/
def uqViol (rt : RecType) (flds : Dict) (rows : List Row) : Option String :=
  (uniqueCols rt).find? (fun col =>
    match dictFind flds col with
    | some v => v ≠ Value.null && rows.any (fun r => dictFind r.fields col = some v)
    | none => false)

/-- Foreign-key check: every non-null reference value must be the id of
an existing row of the referenced table. -/
def fkViol (st : DbState) (rt : RecType) (flds : Dict) : Bool :=
  (fkCols rt).any (fun cr =>
    match dictFind flds cr.1 with
    | some (.int n) => !(tableOf st cr.2).any (fun r => r.id = n)
    | some (.str _) => true
    | _ => false)

/-- INSERT INTO: applies affinity, assigns the rowid, enforces NOT NULL,
UNIQUE, primary-key and foreign-key constraints, appends the row. -/
def insertRow (env : Env) (rt : RecType) (data : Dict) (st : DbState) :
    Except DbError Int × DbState :=
  if (dictKeys data).any (fun k => decide (k ∉ columns rt)) then
    (.error .sqlSyntaxError, st)
  else
    let rows := tableOf st rt
    let data' := applyAffinity rt data
    let idRes : Except DbError Int :=
      match dictFind data' "id" with
      | none => .ok (maxId rows + 1)
      | some (.int n) => .ok n
      | some _ => .error .datatypeMismatch
    match idRes with
    | .error e => (.error e, st)
    | .ok newId =>
      let flds := buildFields env rt data'
      match nnViol rt flds with
      | some col => (.error (.notNullViolation col), st)
      | none =>
        if rows.any (fun r => r.id = newId) then (.error (.uniqueViolation "id"), st)
        else match uqViol rt flds rows with
        | some col => (.error (.uniqueViolation col), st)
        | none =>
          if fkViol st rt flds then (.error .fkViolation, st)
          else (.ok newId, setTable st rt (rows ++ [{ id := newId, fields := flds }]))

/-- Tables referencing each table: (child, column, parent), the reverse
of fkCols, used for ON DELETE foreign-key enforcement. -/
def childRefs (rt : RecType) : List (RecType × String) :=
  ([RecType.location, .room, .uriUser, .image, .batchMove, .movingBox, .item,
    .boxScan, .moveProject].map (fun child =>
      ((fkCols child).filter (fun cr => cr.2 = rt)).map (fun cr => (child, cr.1)))).flatten

def hasChildRef (st : DbState) (rt : RecType) (n : Int) : Bool :=
  (childRefs rt).any (fun cc =>
    (tableOf st cc.1).any (fun r => dictFind r.fields cc.2 = some (.int n)))

/-! ## Interpolation helpers -/

/-- MoveDbRecord._interpolate_color: Color(name).name.lower(), raising
(InvalidColor here) when colorlookup does not recognize the name. -/
def interpolate_color (v : String) : Except DbError String :=
  match colorLookup v with
  | some canon => .ok (strLower canon)
  | none => .error (.invalidColor v)

/-- MoveDbRecord._interpolate_timestamp: parse "now" or ISO-8601, convert
to UTC, format as YYYY-MM-DD HH:MM:SSZ.  The source line
ts_dt.replace(tzinfo=LOCAL_TZ) discards its result (replace returns a new
datetime), a no-op; astimezone(timezone.utc) then treats a naive datetime
as local time anyway, i.e. the local offset applies when none was
parsed. -/
def interpolate_timestamp (env : Env) (v : String) : Except DbError String :=
  if v = "now" then .ok (formatEpoch env.now)
  else match parseIso v with
    | none => .error (.invalidTimestamp v)
    | some ts => .ok (formatEpoch (tsToEpoch ts (ts.off.getD env.localOffset)))

/-- The spec's wording of timestamp normalization, for comparison with
the code-derived `interpolate_timestamp`: parse ISO-8601 or "now"; if the
parsed value lacks a timezone, assume the local system timezone (attach
it); convert to UTC; format as YYYY-MM-DD HH:MM:SSZ. -/
def specTimestampNormalize (env : Env) (v : String) : Except DbError String :=
  if v = "now" then .ok (formatEpoch env.now)
  else match parseIso v with
    | none => .error (.invalidTimestamp v)
    | some ts =>
      let ts2 : TS := if ts.off = none then { ts with off := some env.localOffset } else ts
      .ok (formatEpoch (tsToEpoch ts2 (ts2.off.getD 0)))

/-- MoveDbImage.get_image_file: hash the source file, place a symlink
named digest_basename in the image directory (failing if that name
already exists), and guess mimetype/encoding.  Returns (internal path,
mimetype, encoding, digest). -/
def get_image_file (env : Env) (p : String) (st : DbState) :
    Except DbError (String × Option String × Option String × String) × DbState :=
  match envRead env p with
  | none => (.error (.imageReadError p), st)
  | some content =>
    let h := digestOf content
    let internal := h ++ "_" ++ baseName p
    if internal ∈ st.imgdir then (.error (.symlinkError internal), st)
    else
      let mt := guessType p
      (.ok (internal, mt.1, mt.2, h), { st with imgdir := st.imgdir ++ [internal] })

/-- MoveDbRecord._interpolate_image: skip when image_file and hash are
both already present, else derive image_file, mimetype, encoding and hash
from the referenced file and merge them into data. -/
def interpolate_image (env : Env) (p : Value) (data : Dict) (st : DbState) :
    Except DbError Dict × DbState :=
  if dictHas data "image_file" ∧ dictHas data "hash" then (.ok data, st)
  else match p with
    | .str path =>
      match get_image_file env path st with
      | (.error e, st') => (.error e, st')
      | (.ok (internal, mt, enc, h), st') =>
        (.ok (dictSet (dictSet (dictSet (dictSet data "image_file" (.str internal))
          "mimetype" (optVal mt)) "encoding" (optVal enc)) "hash" (.str h)), st')
    | _ => (.error .typeError, st)

/-- MoveDbRecord.kv_search: SELECT id FROM table WHERE key LIKE :value,
returning the first matching row's id.  The SQL text is displayed first,
which raises when no UI is attached. -/
def kv_search (ui : UI) (rt : RecType) (key : String) (v : String) (st : DbState) :
    Except DbError (Option Int) :=
  if ui.isNone then .error .uiUnavailable
  else
    .ok (((tableOf st rt).find? (fun r =>
      match dictFind r.fields key with
      | some (.str s) => sqlLike v s
      | _ => false)).map (fun r => r.id))

/-- The value produced by a field's generate rule.
gen_primary_user reads move_project rowid 1; gen_hash mutates
data["hash"] but returns None, and db_create stores the returned None;
gen_mimetype runs only when "mimetype" is absent and then raises. -/
def genValue (env : Env) (rule : GenRule) (data : Dict) (st : DbState) :
    Except DbError Value :=
  match rule with
  | .primaryUser =>
    match st.moveProject.find? (fun r => r.id = 1) with
    | some r => .ok ((dictFind r.fields "primary_user").getD .null)
    | none => .error .typeError
  | .genHash =>
    match dictFind data "image_file" with
    | none => .error (.genError "hash")
    | some (.str p) =>
      match envRead env p with
      | some _ => .ok .null
      | none => .error (.imageReadError p)
    | some _ => .error .typeError
  | .genMimetype => .error (.genError "mimetype")

/-- MoveDbRecord._generate_fields: for each declared field absent from
data that has a generate rule, compute and store its value. -/
def genGo (env : Env) (rt : RecType) : List String → Dict → DbState → Except DbError Dict
  | [], data, _ => .ok data
  | k :: ks, data, st =>
    if dictHas data k then genGo env rt ks data st
    else match (fieldSpec rt k).bind (fun s => s.generate) with
      | none => genGo env rt ks data st
      | some rule =>
        match genValue env rule data st with
        | .error e => .error e
        | .ok v => genGo env rt ks (dictSet data k v) st

def generateFields (env : Env) (rt : RecType) (data : Dict) (st : DbState) :
    Except DbError Dict :=
  genGo env rt (fields rt) data st

/-- MoveDbRecord._prompt_missing_fields: with no UI, do nothing; with a
UI, prompt for the declared fields absent from data that carry a prompt
string and merge every key of the response into data. -/
def promptMissing (ui : UI) (rt : RecType) (data : Dict) : Dict :=
  match ui with
  | none => data
  | some u =>
    let prompted := (fields rt).filter (fun k =>
      !dictHas data k && ((fieldSpec rt k).map (fun s => s.hasPrompt)).getD false)
    (u.promptResp (table_name rt) prompted).foldl (fun d kv => dictSet d kv.1 kv.2) data

/-! ## The record pipeline (db_create / interpolation / get_or_create)

The three are mutually recursive across record types (interpolating a
natural-key reference creates the referenced row, whose own creation
interpolates again).  Recursion is bounded by fuel; the reference graph
of the schema is acyclic, so any fuel above its depth behaves like the
unbounded original. -/

mutual

/-- MoveDbRecord.db_create: allow-list check, prompt, interpolate,
generate, empty-record guard, display (raises without a UI), insert. -/
def db_create : Nat → Env → UI → RecType → Dict → DbState →
    Except DbError (Int × Dict) × DbState
  | 0, _, _, _, _, st => (.error .outOfFuel, st)
  | fuel + 1, env, ui, rt, data, st =>
    let invalid := check_allowed_fields rt data
    if invalid ≠ [] then (.error (.invalidField invalid), st)
    else
      let data1 := promptMissing ui rt data
      bindE (interpGo fuel env ui rt (dictKeys data1) data1 st) (fun data2 st2 =>
        match generateFields env rt data2 st2 with
        | .error e => (.error e, st2)
        | .ok data3 =>
          if data3.isEmpty then (.error .emptyRecord, st2)
          else if ui.isNone then (.error .uiUnavailable, st2)
          else mapE (insertRow env rt data3 st2) (fun rid => .ok (rid, data3)))

/-- MoveDbRecord._interpolate_fields, iterating over the keys captured at
entry: resolve natural-key references through get_or_create (values that
are integers or all-digit strings are left as they are), then apply the
image/color/timestamp interpolation of the field. -/
def interpGo : Nat → Env → UI → RecType → List String → Dict → DbState →
    Except DbError Dict × DbState
  | _, _, _, _, [], data, st => (.ok data, st)
  | 0, _, _, _, _ :: _, _, st => (.error .outOfFuel, st)
  | fuel + 1, env, ui, rt, k :: ks, data, st =>
    match fieldSpec rt k with
    | none => (.error (.keyError k), st)
    | some spec =>
      let step1 : Except DbError Dict × DbState :=
        match spec.references with
        | none => (.ok data, st)
        | some ref =>
          match dictFind data k with
          | none => (.error (.keyError k), st)
          | some (.int _) => (.ok data, st)
          | some (.str s) =>
            if allDigits s then (.ok data, st)
            else
              mapE (get_or_create fuel env ui ref s data st)
                (fun rid => .ok (dictSet data k (.int rid)))
          | some .null => (.error .typeError, st)
      bindE step1 (fun dataA stA =>
        let step2 : Except DbError Dict × DbState :=
          match spec.interpolate with
          | none => (.ok dataA, stA)
          | some .image =>
            match dictFind dataA k with
            | some v => interpolate_image env v dataA stA
            | none => (.error (.keyError k), stA)
          | some .color =>
            match dictFind dataA k with
            | some (.str s) =>
              match interpolate_color s with
              | .ok c => (.ok (dictSet dataA k (.str c)), stA)
              | .error e => (.error e, stA)
            | _ => (.error .typeError, stA)
          | some .timestamp =>
            match dictFind dataA k with
            | some (.str s) =>
              match interpolate_timestamp env s with
              | .ok t => (.ok (dictSet dataA k (.str t)), stA)
              | .error e => (.error e, stA)
            | _ => (.error .typeError, stA)
        bindE step2 (fun dataB stB => interpGo fuel env ui rt ks dataB stB))

/-- get_or_create, dispatched on the target class.  Location and URIUser
create a minimal {name} record; Room copies the declared fields present
in the caller's data and then sets name; Image hashes the source file,
places the symlink, deduplicates by digest and otherwise creates the row;
the remaining classes define no get_or_create, so resolving a natural key
against them raises AttributeError. -/
def get_or_create : Nat → Env → UI → RecType → String → Dict → DbState →
    Except DbError Int × DbState
  | 0, _, _, _, _, _, st => (.error .outOfFuel, st)
  | fuel + 1, env, ui, rt, v, ctx, st =>
    match rt with
    | .location =>
      match kv_search ui .location "name" v st with
      | .error e => (.error e, st)
      | .ok (some rid) => (.ok rid, st)
      | .ok none =>
        mapE (db_create fuel env ui .location [("name", .str v)] st) (fun p => .ok p.1)
    | .uriUser =>
      match kv_search ui .uriUser "name" v st with
      | .error e => (.error e, st)
      | .ok (some rid) => (.ok rid, st)
      | .ok none =>
        mapE (db_create fuel env ui .uriUser [("name", .str v)] st) (fun p => .ok p.1)
    | .room =>
      match kv_search ui .room "name" v st with
      | .error e => (.error e, st)
      | .ok (some rid) => (.ok rid, st)
      | .ok none =>
        let newrec := (fields .room).filterMap (fun key =>
          (dictFind ctx key).map (fun val => (key, val)))
        mapE (db_create fuel env ui .room (dictSet newrec "name" (.str v)) st)
          (fun p => .ok p.1)
    | .image =>
      if !envExists env v then (.error (.imageReadError v), st)
      else
        match get_image_file env v st with
        | (.error e, st') => (.error e, st')
        | (.ok (internal, mt, enc, h), st') =>
          match kv_search ui .image "hash" h st' with
          | .error e => (.error e, st')
          | .ok (some rid) => (.ok rid, st')
          | .ok none =>
            let newrec := (fields .image).filterMap (fun key =>
              if key = "id" then none
              else (dictFind ctx key).map (fun val => (key, val)))
            let newrec := dictSet (dictSet (dictSet (dictSet newrec
              "image_file" (.str internal)) "mimetype" (optVal mt))
              "encoding" (optVal enc)) "hash" (.str h)
            mapE (db_create fuel env ui .image newrec st') (fun p => .ok p.1)
    | _ => (.error (.attributeError rt), st)

end

/-! ## Update, read, delete, batch commit -/

/-- UPDATE table SET (non-id columns of data) WHERE id == :id, with
SQLite's constraint enforcement; rowcount 0 raises "SQL update failed". -/
def updateRow (rt : RecType) (idv : Value) (data : Dict) (st : DbState) :
    Except DbError Int × DbState :=
  match affinity idv with
  | .int n =>
    let rows := tableOf st rt
    match rows.find? (fun r => r.id = n) with
    | none => (.error .sqlUpdateFailed, st)
    | some r0 =>
      let data' := applyAffinity rt (data.filter (fun kv => kv.1 ≠ "id"))
      if (dictKeys data').any (fun k => decide (k ∉ columns rt)) then
        (.error .sqlSyntaxError, st)
      else
        let newFields := data'.foldl (fun f kv => dictSet f kv.1 kv.2) r0.fields
        match nnViol rt newFields with
        | some col => (.error (.notNullViolation col), st)
        | none =>
          match (uniqueCols rt).find? (fun col =>
              match dictFind newFields col with
              | some v => v ≠ Value.null &&
                  rows.any (fun r => r.id ≠ r0.id && dictFind r.fields col = some v)
              | none => false) with
          | some col => (.error (.uniqueViolation col), st)
          | none =>
            if fkViol st rt newFields then (.error .fkViolation, st)
            else
              (.ok 1, setTable st rt (rows.map (fun r =>
                if r.id = r0.id then { r with fields := newFields } else r)))
  | _ => (.error .sqlUpdateFailed, st)

/-- MoveDbRecord.db_update: interpolate and generate against the given
data, then issue the column-list UPDATE.  There is no allow-list or id
presence check; an absent id surfaces as a parameter binding error, an
empty column list as a SQL syntax error, both after the display call
(which itself raises when no UI is attached). -/
def db_update (fuel : Nat) (env : Env) (ui : UI) (rt : RecType) (data : Dict)
    (st : DbState) : Except DbError Int × DbState :=
  bindE (interpGo fuel env ui rt (dictKeys data) data st) (fun d2 st2 =>
    match generateFields env rt d2 st2 with
    | .error e => (.error e, st2)
    | .ok d3 =>
      if ui.isNone then (.error .uiUnavailable, st2)
      else if ((dictKeys d3).filter (fun k => k ≠ "id")).isEmpty then
        (.error .sqlSyntaxError, st2)
      else match dictFind d3 "id" with
        | none => (.error .sqlParamError, st2)
        | some idv => updateRow rt idv d3 st2)

/-- MoveDbRecord.db_read: requires id, displays the SELECT and its
result rows.  sqlite3 reports rowcount -1 for SELECT statements, so the
`if cur.rowcount == 0: raise` guard never fires: a read of an absent id
displays an empty table and still returns 1. -/
def db_read (ui : UI) (rt : RecType) (data : Dict) (st : DbState) :
    Except DbError Int × DbState :=
  match dictFind data "id" with
  | none => (.error (.noId (table_name rt)), st)
  | some _ =>
    if ui.isNone then (.error .uiUnavailable, st)
    else (.ok 1, st)

/-- MoveDbRecord.db_delete: requires id; DELETE FROM table WHERE
id == :id; rowcount 0 raises "SQL delete failed".  With foreign keys on,
deleting a row still referenced by a child table raises. -/
def db_delete (ui : UI) (rt : RecType) (data : Dict) (st : DbState) :
    Except DbError Int × DbState :=
  match dictFind data "id" with
  | none => (.error (.noId (table_name rt)), st)
  | some idv =>
    if ui.isNone then (.error .uiUnavailable, st)
    else match affinity idv with
      | .int n =>
        let rows := tableOf st rt
        if rows.any (fun r => r.id = n) then
          if hasChildRef st rt n then (.error .fkViolation, st)
          else (.ok 1, setTable st rt (rows.filter (fun r => !(r.id = n))))
        else (.error .sqlDeleteFailed, st)
      | _ => (.error .sqlDeleteFailed, st)

/-- MoveDbBatchMove.commit: one UPDATE joining moving_box to box_scan and
batch_move, setting each scanned box's location to the batch's location.
SQLite counts every matched target row as changed, whether or not the
stored value differs, so rowcount is the number of scanned boxes; the
"no records modified" message is returned only when the join matches no
box at all.  The function returns an error string or None; it raises
only through the display proxy. -/
def commit (ui : UI) (data : Dict) (st : DbState) :
    Except DbError (Option String) × DbState :=
  match dictFind data "id" with
  | none => (.ok (some "id not specified for batch commit"), st)
  | some idv =>
    if ui.isNone then (.error .uiUnavailable, st)
    else match affinity idv with
      | .int b =>
        match st.batchMove.find? (fun r => r.id = b) with
        | none => (.ok (some "no records modified"), st)
        | some br =>
          let loc := (dictFind br.fields "location").getD .null
          let matched := fun (r : Row) => st.boxScan.any (fun s =>
            dictFind s.fields "batch" = some (.int b) &&
            dictFind s.fields "box" = some (.int r.id))
          let count := (st.movingBox.filter (fun r => matched r)).length
          if count = 0 then (.ok (some "no records modified"), st)
          else
            (.ok none, { st with movingBox := st.movingBox.map (fun r =>
              if matched r then { r with fields := dictSet r.fields "location" loc }
              else r) })
      | _ => (.ok (some "no records modified"), st)

/-! ## Reachability and the natural-key uniqueness invariant -/

/-- Pairwise-distinct rowids. -/
def idsDistinct (rows : List Row) : Prop :=
  rows.Pairwise (fun r1 r2 => r1.id ≠ r2.id)

/-- Pairwise-distinct values of one column. -/
def colDistinct (col : String) (rows : List Row) : Prop :=
  rows.Pairwise (fun r1 r2 => dictFind r1.fields col ≠ dictFind r2.fields col)

/-- The natural-key column of the tables carrying one. -/
def nkCol : RecType → Option String
  | .location => some "name"
  | .room => some "name"
  | .uriUser => some "name"
  | .image => some "hash"
  | _ => none

/-- Working invariant: distinct rowids in every table, and for each
natural-key column pairwise-distinct, present, non-null values. -/
def dbInv (st : DbState) : Prop :=
  ∀ rt, idsDistinct (tableOf st rt) ∧
    ∀ col, nkCol rt = some col →
      colDistinct col (tableOf st rt) ∧
      ∀ r ∈ tableOf st rt, ∃ v, dictFind r.fields col = some v ∧ v ≠ Value.null

/-- The uniqueness property the spec claims: no two location rows share a
name, likewise room and uri_user, and no two image rows share a hash. -/
def naturalKeysUnique (st : DbState) : Prop :=
  colDistinct "name" st.location ∧ colDistinct "name" st.room ∧
  colDistinct "name" st.uriUser ∧ colDistinct "hash" st.image

/-- Every state reachable from a fresh database through the public
operations of the storage layer, successful or failed. -/
inductive Reachable : DbState → Prop where
  | init : Reachable initState
  | create (fuel : Nat) (env : Env) (ui : UI) (rt : RecType) (data : Dict) {st : DbState} :
      Reachable st → Reachable (db_create fuel env ui rt data st).2
  | update (fuel : Nat) (env : Env) (ui : UI) (rt : RecType) (data : Dict) {st : DbState} :
      Reachable st → Reachable (db_update fuel env ui rt data st).2
  | read (ui : UI) (rt : RecType) (data : Dict) {st : DbState} :
      Reachable st → Reachable (db_read ui rt data st).2
  | delete (ui : UI) (rt : RecType) (data : Dict) {st : DbState} :
      Reachable st → Reachable (db_delete ui rt data st).2
  | resolve (fuel : Nat) (env : Env) (ui : UI) (rt : RecType) (v : String) (ctx : Dict)
      {st : DbState} : Reachable st → Reachable (get_or_create fuel env ui rt v ctx st).2
  | commitStep (ui : UI) (data : Dict) {st : DbState} :
      Reachable st → Reachable (commit ui data st).2

/-! ### Auxiliary lemmas -/

lemma dictFind_dictSet (d : Dict) (k k' : String) (v : Value) :
    dictFind (dictSet d k v) k' = if k = k' then some v else dictFind d k' := by
  induction d with
  | nil => by_cases h : k = k' <;> simp [dictSet, dictFind, h]
  | cons kv rest ih =>
    obtain ⟨k0, v0⟩ := kv
    by_cases h0 : k0 = k
    · subst h0
      by_cases h : k0 = k' <;> simp [dictSet, dictFind, h]
    · by_cases h : k0 = k'
      · subst h
        simp [dictSet, dictFind, h0, Ne.symm h0]
      · simp [dictSet, dictFind, h0, h, ih]

lemma dictFind_foldlSet_isSome (l : List (String × Value)) (d : Dict) (col : String)
    (h : (dictFind d col).isSome) :
    (dictFind (l.foldl (fun f kv => dictSet f kv.1 kv.2) d) col).isSome := by
  induction l generalizing d with
  | nil => exact h
  | cons kv rest ih =>
    refine ih _ ?_
    rw [dictFind_dictSet]
    split <;> simp [h]

lemma dictFind_mapSelf (g : String → Value) (l : List String) (col : String)
    (h : col ∈ l) : dictFind (l.map (fun c => (c, g c))) col = some (g col) := by
  induction l with
  | nil => cases h
  | cons c cs ih =>
    by_cases hc : c = col
    · subst hc
      simp [dictFind]
    · have hmem : col ∈ cs := by
        rcases List.mem_cons.mp h with h' | h'
        · exact absurd h'.symm hc
        · exact h'
      simpa [dictFind, hc] using ih hmem

lemma tableOf_setTable (st : DbState) (rt rt' : RecType) (rows : List Row) :
    tableOf (setTable st rt rows) rt' = if rt = rt' then rows else tableOf st rt' := by
  cases rt <;> cases rt' <;> simp [tableOf, setTable]

lemma tableOf_imgdir (st : DbState) (d : List String) (rt : RecType) :
    tableOf { st with imgdir := d } rt = tableOf st rt := by
  cases rt <;> rfl

lemma dbInv_imgdir {st : DbState} {d : List String} (h : dbInv st) :
    dbInv { st with imgdir := d } := by
  intro rt
  simp only [tableOf_imgdir]
  exact h rt

lemma nkCol_mem_unique {rt : RecType} {col : String} (h : nkCol rt = some col) :
    col ∈ uniqueCols rt := by
  cases rt <;> simp [nkCol] at h <;> simp [uniqueCols, ← h]

lemma nkCol_mem_notNull {rt : RecType} {col : String} (h : nkCol rt = some col) :
    col ∈ notNullCols rt := by
  cases rt <;> simp [nkCol] at h <;> simp [notNullCols, ← h]

lemma nkCol_mem_cols {rt : RecType} {col : String} (h : nkCol rt = some col) :
    col ∈ (columns rt).filter (fun c => c ≠ "id") := by
  cases rt <;> simp [nkCol] at h <;> simp [columns, ← h]

lemma mapE_snd {α β : Type} (r : Except DbError α × DbState) (g : α → Except DbError β) :
    (mapE r g).2 = r.2 := rfl

lemma bindE_pres {α β : Type} (P : DbState → Prop) (r : Except DbError α × DbState)
    (f : α → DbState → Except DbError β × DbState)
    (hr : P r.2) (hf : ∀ a st, P st → P (f a st).2) : P (bindE r f).2 := by
  obtain ⟨e, st⟩ := r
  cases e with
  | error e => exact hr
  | ok a => exact hf a st hr

lemma get_image_file_pres (env : Env) (p : String) (st : DbState) (h : dbInv st) :
    dbInv (get_image_file env p st).2 := by
  unfold get_image_file
  split
  · exact h
  · dsimp only
    split
    · exact h
    · exact dbInv_imgdir h

lemma dictFind_buildFields_isSome (env : Env) (rt : RecType) (data : Dict)
    {col : String} (h : col ∈ (columns rt).filter (fun c => c ≠ "id")) :
    ∃ v, dictFind (buildFields env rt data) col = some v := by
  unfold buildFields
  exact ⟨_, dictFind_mapSelf _ _ _ h⟩

lemma insertRow_pres (env : Env) (rt : RecType) (data : Dict) (st : DbState)
    (h : dbInv st) : dbInv (insertRow env rt data st).2 := by
  unfold insertRow
  split
  · exact h
  · dsimp only
    split
    · exact h
    · rename_i newId hid
      split
      · exact h
      · rename_i hnn
        split
        · exact h
        · rename_i hidany
          split
          · exact h
          · rename_i huq
            split
            · exact h
            · dsimp only
              intro rt'
              simp only [tableOf_setTable]
              by_cases hrt : rt = rt'
              · subst hrt
                rw [if_pos rfl]
                set rows := tableOf st rt with hrows
                set flds := buildFields env rt (applyAffinity rt data) with hflds
                have hidany' : ∀ a ∈ rows, a.id ≠ newId := by
                  intro a ha hEq
                  exact hidany (List.any_eq_true.mpr ⟨a, ha, by simp [hEq]⟩)
                refine ⟨?_, ?_⟩
                · exact List.pairwise_append.mpr ⟨(h rt).1, List.pairwise_singleton _ _,
                    by
                      intro a ha b hb
                      simp only [List.mem_singleton] at hb
                      subst hb
                      exact hidany' a ha⟩
                · intro col hcol
                  obtain ⟨v, hv⟩ := dictFind_buildFields_isSome env rt
                    (applyAffinity rt data) (nkCol_mem_cols hcol)
                  have hvnull : v ≠ Value.null := by
                    intro hEq
                    subst hEq
                    have := List.find?_eq_none.mp hnn col (nkCol_mem_notNull hcol)
                    simp only [decide_eq_true_eq] at this
                    exact this hv
                  have hnotin : ∀ r ∈ rows, dictFind r.fields col ≠ some v := by
                    have := List.find?_eq_none.mp huq col (nkCol_mem_unique hcol)
                    rw [hv] at this
                    simp only [Bool.and_eq_true, decide_eq_true_eq, not_and] at this
                    have hany := this hvnull
                    intro r hr hEq
                    exact hany (List.any_eq_true.mpr ⟨r, hr, by simp [hEq]⟩)
                  refine ⟨List.pairwise_append.mpr
                    ⟨((h rt).2 col hcol).1, List.pairwise_singleton _ _, ?_⟩, ?_⟩
                  · intro a ha b hb
                    simp only [List.mem_singleton] at hb
                    subst hb
                    show dictFind a.fields col ≠ dictFind flds col
                    rw [hv]
                    exact hnotin a ha
                  · intro r hr
                    rcases List.mem_append.mp hr with hOld | hNew
                    · exact ((h rt).2 col hcol).2 r hOld
                    · simp only [List.mem_singleton] at hNew
                      subst hNew
                      exact ⟨v, hv, hvnull⟩
              · rw [if_neg hrt]
                exact h rt'

lemma updateRow_pres (rt : RecType) (idv : Value) (data : Dict) (st : DbState)
    (h : dbInv st) : dbInv (updateRow rt idv data st).2 := by
  unfold updateRow
  split
  · dsimp only
    split
    · exact h
    · rename_i r0 hfind
      split
      · exact h
      · split
        · exact h
        · rename_i hnn
          split
          · exact h
          · rename_i huq
            split
            · exact h
            · dsimp only
              intro rt'
              simp only [tableOf_setTable]
              by_cases hrt : rt = rt'
              · subst hrt
                rw [if_pos rfl]
                set rows := tableOf st rt with hrowsdef
                set newFields := (applyAffinity rt (data.filter (fun kv => kv.1 ≠ "id"))).foldl
                    (fun f kv => dictSet f kv.1 kv.2) r0.fields with hnf
                constructor
                · simp only [idsDistinct, List.pairwise_map]
                  refine (h rt).1.imp ?_
                  intro a b hab
                  by_cases haa : a.id = r0.id <;> by_cases hbb : b.id = r0.id <;>
                    simpa [haa, hbb] using hab
                · intro col hcol
                  have hr0mem : r0 ∈ rows := List.mem_of_find?_eq_some hfind
                  obtain ⟨v0, hv0, _⟩ := ((h rt).2 col hcol).2 r0 hr0mem
                  have hsome : (dictFind newFields col).isSome := by
                    rw [hnf]
                    exact dictFind_foldlSet_isSome _ _ _ (by simp [hv0])
                  obtain ⟨v', hv'⟩ := Option.isSome_iff_exists.mp hsome
                  have hvnull : v' ≠ Value.null := by
                    intro hEq
                    subst hEq
                    have := List.find?_eq_none.mp hnn col (nkCol_mem_notNull hcol)
                    simp only [decide_eq_true_eq] at this
                    exact this hv'
                  have hneq : ∀ r ∈ rows, r.id ≠ r0.id → dictFind r.fields col ≠ some v' := by
                    have hpred := List.find?_eq_none.mp huq col (nkCol_mem_unique hcol)
                    simp only [hv', Bool.and_eq_true, decide_eq_true_eq, not_and] at hpred
                    intro r hr hrid hEq
                    exact hpred hvnull (List.any_eq_true.mpr ⟨r, hr, by simp [hrid, hEq]⟩)
                  have hand := ((h rt).2 col hcol).1.and (h rt).1
                  refine ⟨?_, ?_⟩
                  · simp only [colDistinct, List.pairwise_map]
                    refine hand.imp_of_mem ?_
                    intro a b ha hb hab
                    obtain ⟨hcd, hid⟩ := hab
                    by_cases haa : a.id = r0.id <;> by_cases hbb : b.id = r0.id
                    · exact absurd (haa.trans hbb.symm) hid
                    · simp only [haa, if_true, hbb, if_false, if_pos, if_neg, not_false_iff]
                      show dictFind newFields col ≠ dictFind b.fields col
                      rw [hv']
                      exact fun hEq => hneq b hb hbb hEq.symm
                    · simp only [haa, hbb, if_false, if_pos, if_neg, not_false_iff]
                      show dictFind a.fields col ≠ dictFind newFields col
                      rw [hv']
                      exact hneq a ha haa
                    · simpa [haa, hbb] using hcd
                  · intro r' hr'
                    obtain ⟨r, hrmem, hrEq⟩ := List.mem_map.mp hr'
                    subst hrEq
                    by_cases hru : r.id = r0.id
                    · simp only [hru, if_pos]
                      exact ⟨v', hv', hvnull⟩
                    · simp only [hru, if_neg, if_false, not_false_iff]
                      exact ((h rt).2 col hcol).2 r hrmem
              · rw [if_neg hrt]
                exact h rt'
  · exact h

lemma interpolate_image_pres (env : Env) (p : Value) (data : Dict) (st : DbState)
    (h : dbInv st) : dbInv (interpolate_image env p data st).2 := by
  unfold interpolate_image
  split
  · exact h
  · split
    · rename_i path
      split
      · rename_i e st' heq
        have hp := get_image_file_pres env path st h
        rw [heq] at hp
        exact hp
      · rename_i internal mt enc hsh st' heq
        have hp := get_image_file_pres env path st h
        rw [heq] at hp
        exact hp
    · exact h

lemma pipeline_pres : ∀ fuel : Nat,
    (∀ env ui rt data st, dbInv st → dbInv (db_create fuel env ui rt data st).2) ∧
    (∀ env ui rt keys data st, dbInv st → dbInv (interpGo fuel env ui rt keys data st).2) ∧
    (∀ env ui rt v ctx st, dbInv st → dbInv (get_or_create fuel env ui rt v ctx st).2) := by
  intro fuel
  induction fuel with
  | zero =>
    refine ⟨fun env ui rt data st h => h, ?_, fun env ui rt v ctx st h => h⟩
    intro env ui rt keys data st h
    cases keys with
    | nil => exact h
    | cons k ks => exact h
  | succ fuel ih =>
    obtain ⟨ihC, ihI, ihG⟩ := ih
    refine ⟨?_, ?_, ?_⟩
    · -- db_create (fuel+1)
      intro env ui rt data st h
      simp only [db_create]
      split
      · exact h
      · refine bindE_pres dbInv _ _ (ihI _ _ _ _ _ _ h) ?_
        intro data2 st2 h2
        split
        · exact h2
        · split
          · exact h2
          · split
            · exact h2
            · show dbInv (mapE _ _).2
              rw [mapE_snd]
              exact insertRow_pres _ _ _ _ h2
    · -- interpGo (fuel+1)
      intro env ui rt keys data st h
      cases keys with
      | nil => exact h
      | cons k ks =>
        simp only [interpGo]
        split
        · exact h
        · rename_i spec hspec
          refine bindE_pres dbInv _ _ ?_ ?_
          · -- the reference-resolution step
            split
            · exact h
            · split
              · exact h
              · exact h
              · split
                · exact h
                · show dbInv (mapE _ _).2
                  rw [mapE_snd]
                  exact ihG _ _ _ _ _ _ h
              · exact h
          · intro dataA stA hA
            refine bindE_pres dbInv _ _ ?_ (fun dataB stB hB => ihI _ _ _ _ _ _ hB)
            split
            · exact hA
            · split
              · exact interpolate_image_pres _ _ _ _ hA
              · exact hA
            · split
              · split
                · exact hA
                · exact hA
              · exact hA
            · split
              · split
                · exact hA
                · exact hA
              · exact hA
    · -- get_or_create (fuel+1)
      intro env ui rt v ctx st h
      simp only [get_or_create]
      split
      · -- location
        split
        · exact h
        · exact h
        · show dbInv (mapE _ _).2
          rw [mapE_snd]
          exact ihC _ _ _ _ _ h
      · -- uriUser
        split
        · exact h
        · exact h
        · show dbInv (mapE _ _).2
          rw [mapE_snd]
          exact ihC _ _ _ _ _ h
      · -- room
        split
        · exact h
        · exact h
        · show dbInv (mapE _ _).2
          rw [mapE_snd]
          exact ihC _ _ _ _ _ h
      · -- image
        split
        · exact h
        · split
          · rename_i heq
            have hp := get_image_file_pres env v st h
            rw [heq] at hp
            exact hp
          · rename_i internal mt enc hsh st' heq
            have hp : dbInv st' := by
              have := get_image_file_pres env v st h
              rw [heq] at this
              exact this
            split
            · exact hp
            · exact hp
            · show dbInv (mapE _ _).2
              rw [mapE_snd]
              exact ihC _ _ _ _ _ hp
      · -- classes without get_or_create
        exact h

lemma db_create_pres (fuel : Nat) (env : Env) (ui : UI) (rt : RecType) (data : Dict)
    (st : DbState) (h : dbInv st) : dbInv (db_create fuel env ui rt data st).2 :=
  (pipeline_pres fuel).1 env ui rt data st h

lemma get_or_create_pres (fuel : Nat) (env : Env) (ui : UI) (rt : RecType) (v : String)
    (ctx : Dict) (st : DbState) (h : dbInv st) :
    dbInv (get_or_create fuel env ui rt v ctx st).2 :=
  (pipeline_pres fuel).2.2 env ui rt v ctx st h

lemma db_update_pres (fuel : Nat) (env : Env) (ui : UI) (rt : RecType) (data : Dict)
    (st : DbState) (h : dbInv st) : dbInv (db_update fuel env ui rt data st).2 := by
  unfold db_update
  refine bindE_pres dbInv _ _ ((pipeline_pres fuel).2.1 _ _ _ _ _ _ h) ?_
  intro d2 st2 h2
  split
  · exact h2
  · split
    · exact h2
    · split
      · exact h2
      · split
        · exact h2
        · exact updateRow_pres _ _ _ _ h2

lemma db_read_pres (ui : UI) (rt : RecType) (data : Dict) (st : DbState)
    (h : dbInv st) : dbInv (db_read ui rt data st).2 := by
  unfold db_read
  split
  · exact h
  · split
    · exact h
    · exact h

lemma db_delete_pres (ui : UI) (rt : RecType) (data : Dict) (st : DbState)
    (h : dbInv st) : dbInv (db_delete ui rt data st).2 := by
  unfold db_delete
  split
  · exact h
  · split
    · exact h
    · split
      · dsimp only
        split
        · split
          · exact h
          · intro rt'
            simp only [tableOf_setTable]
            by_cases hrt : rt = rt'
            · subst hrt
              rw [if_pos rfl]
              refine ⟨(h rt).1.sublist (List.filter_sublist _), ?_⟩
              intro col hcol
              refine ⟨((h rt).2 col hcol).1.sublist (List.filter_sublist _), ?_⟩
              intro r hr
              exact ((h rt).2 col hcol).2 r (List.mem_of_mem_filter hr)
            · rw [if_neg hrt]
              exact h rt'
        · exact h
      · exact h

lemma tableOf_setBoxes (st : DbState) (rows : List Row) (rt : RecType) :
    tableOf { st with movingBox := rows } rt =
      if rt = .movingBox then rows else tableOf st rt := by
  cases rt <;> rfl

lemma commit_pres (ui : UI) (data : Dict) (st : DbState) (h : dbInv st) :
    dbInv (commit ui data st).2 := by
  unfold commit
  split
  · exact h
  · split
    · exact h
    · split
      · split
        · exact h
        · dsimp only
          split
          · exact h
          · intro rt'
            simp only [tableOf_setBoxes]
            by_cases hrt : rt' = .movingBox
            · subst hrt
              rw [if_pos rfl]
              constructor
              · simp only [idsDistinct, List.pairwise_map]
                refine (h .movingBox).1.imp ?_
                intro a b hab
                dsimp only
                split <;> split <;> exact hab
              · intro col hcol
                simp [nkCol] at hcol
            · rw [if_neg hrt]
              exact h rt'
      · exact h

/-- Every reachable state satisfies the working invariant. -/
lemma reachable_dbInv {st : DbState} (h : Reachable st) : dbInv st := by
  induction h with
  | init =>
    intro rt
    have hempty : tableOf initState rt = [] := by cases rt <;> rfl
    rw [hempty]
    exact ⟨List.Pairwise.nil, fun col _ => ⟨List.Pairwise.nil, fun r hr => absurd hr
      (List.not_mem_nil r)⟩⟩
  | create fuel env ui rt data _ ih => exact db_create_pres fuel env ui rt data _ ih
  | update fuel env ui rt data _ ih => exact db_update_pres fuel env ui rt data _ ih
  | read ui rt data _ ih => exact db_read_pres ui rt data _ ih
  | delete ui rt data _ ih => exact db_delete_pres ui rt data _ ih
  | resolve fuel env ui rt v ctx _ ih => exact get_or_create_pres fuel env ui rt v ctx _ ih
  | commitStep ui data _ ih => exact commit_pres ui data _ ih

/-- MoveDbRecord._interpolate_fields: interpolation over the keys of data
captured at entry. -/
def interpolate_fields (fuel : Nat) (env : Env) (ui : UI) (rt : RecType) (data : Dict)
    (st : DbState) : Except DbError Dict × DbState :=
  interpGo fuel env ui rt (dictKeys data) data st

lemma interpGo_nil (fuel : Nat) (env : Env) (ui : UI) (rt : RecType) (data : Dict)
    (st : DbState) : interpGo fuel env ui rt [] data st = (.ok data, st) := by
  cases fuel <;> rfl

/-! ## Claim theorems -/

/-- C4 (counterexample): create(Room, {}) with no UI attached does not
fail with MissingFields listing name and color: it fails with the
EmptyRecord guard ("cannot insert record with empty data"), because
db_create never invokes check_missing_fields.  No row is inserted. -/
theorem c4_counterexample :
    db_create 32 {} none .room [] initState = (.error .emptyRecord, initState) ∧
    DbError.emptyRecord ≠ DbError.missingFields ["name", "color"] := by
  exact ⟨by decide, by decide⟩

/-- C4 (amended): create(Room, {}) with no UI attached fails — with
EmptyRecord, not MissingFields — and inserts no row (the state is
returned unchanged, whatever it was). -/
theorem c4_create_room_no_ui (fuel : Nat) (env : Env) (st : DbState) :
    db_create (fuel + 1) env none .room [] st = (.error .emptyRecord, st) := by
  simp only [db_create]
  rw [if_neg (by decide : ¬(check_allowed_fields .room [] ≠ []))]
  rw [show promptMissing none .room [] = [] from rfl]
  rw [show dictKeys ([] : Dict) = [] from rfl]
  rw [interpGo_nil]
  simp only [bindE]
  rw [show generateFields env .room [] st = .ok [] from rfl]
  rfl

/-- C7 (code_bug evidence): with a UI attached and an empty room table,
db_read of id 1 succeeds with 1 (it displays an empty result table —
sqlite3 reports rowcount -1 for SELECT so the intended "SQL read failed"
guard never fires), while db_update and db_delete of the same absent id
do raise their failed-update / failed-delete errors. -/
theorem c7_read_absent_id_succeeds :
    db_read (some emptyUI) .room [("id", Value.int 1)] initState = (.ok 1, initState) ∧
    db_delete (some emptyUI) .room [("id", Value.int 1)] initState
      = (.error .sqlDeleteFailed, initState) ∧
    db_update 32 {} (some emptyUI) .room [("id", Value.int 1), ("name", Value.str "X")]
      initState = (.error .sqlUpdateFailed, initState) := by
  refine ⟨by decide, by decide, by decide⟩

/-- C8: for every record type, UI, environment and state, create(data)
with any key of data outside the declared fields fails with InvalidField
listing exactly those keys, before any other pipeline step runs, leaving
the state unchanged. -/
theorem c8_allow_list_atomic (fuel : Nat) (env : Env) (ui : UI) (rt : RecType)
    (data : Dict) (st : DbState) (h : check_allowed_fields rt data ≠ []) :
    db_create (fuel + 1) env ui rt data st =
      (.error (.invalidField (check_allowed_fields rt data)), st) := by
  simp only [db_create]
  rw [if_pos h]

/-- C8 witness: the MovingBox example of the spec. -/
theorem c8_allow_list_atomic_witness :
    check_allowed_fields .movingBox
      [("bogus_field", Value.int 1), ("location", Value.str "Garage"),
       ("info", Value.str "books"), ("room", Value.str "Kitchen"),
       ("user", Value.str "alice")] = ["bogus_field"] ∧
    db_create 32 {} (some emptyUI) .movingBox
      [("bogus_field", Value.int 1), ("location", Value.str "Garage"),
       ("info", Value.str "books"), ("room", Value.str "Kitchen"),
       ("user", Value.str "alice")] initState
      = (.error (.invalidField ["bogus_field"]), initState) := by
  constructor
  · decide
  · have h := c8_allow_list_atomic 31 {} (some emptyUI) .movingBox
      [("bogus_field", Value.int 1), ("location", Value.str "Garage"),
       ("info", Value.str "books"), ("room", Value.str "Kitchen"),
       ("user", Value.str "alice")] initState (by decide)
    rw [h]
    rw [show check_allowed_fields .movingBox
      [("bogus_field", Value.int 1), ("location", Value.str "Garage"),
       ("info", Value.str "books"), ("room", Value.str "Kitchen"),
       ("user", Value.str "alice")] = ["bogus_field"] from by decide]

/-- C5: the code's timestamp interpolation coincides, for every
environment and input string, with the spec's normalization (parse
ISO-8601 or "now"; a parse lacking a timezone is taken in the local
system timezone — the discarded tzinfo replace in the source is a no-op,
but astimezone treats naive datetimes as local anyway; convert to UTC;
format as YYYY-MM-DD HH:MM:SSZ), and on the spec's example
"2024-03-01T09:00:00-08:00" it stores "2024-03-01 17:00:00Z" whatever
the local timezone. -/
theorem c5_timestamp_normalization :
    (∀ (env : Env) (v : String),
      interpolate_timestamp env v = specTimestampNormalize env v) ∧
    (∀ env : Env, interpolate_timestamp env "2024-03-01T09:00:00-08:00"
      = .ok "2024-03-01 17:00:00Z") := by
  constructor
  · intro env v
    unfold interpolate_timestamp specTimestampNormalize
    split
    · rfl
    · split
      · rfl
      · rename_i ts hts
        cases hoff : ts.off with
        | none => simp [hoff, tsToEpoch]
        | some o => simp [hoff]
  · intro env
    rfl

/-- C6: in every database state reachable through the store's operations
(create, update, read, delete, get_or_create, batch commit) from a fresh
database, no two location rows share a name, no two room rows share a
name, no two uri_user rows share a name, and no two image rows share a
hash — the schema's UNIQUE and NOT NULL constraints are enforced on every
insert and update, and the other operations cannot duplicate values. -/
theorem c6_natural_key_uniqueness {st : DbState} (h : Reachable st) :
    naturalKeysUnique st := by
  have hinv := reachable_dbInv h
  exact ⟨((hinv .location).2 "name" rfl).1, ((hinv .room).2 "name" rfl).1,
    ((hinv .uriUser).2 "name" rfl).1, ((hinv .image).2 "hash" rfl).1⟩

/-- C6 witness: the state after creating one room from a fresh database
is reachable and satisfies the uniqueness property. -/
theorem c6_natural_key_uniqueness_witness :
    naturalKeysUnique (db_create 32 {} (some emptyUI) .room
      [("name", Value.str "Kitchen"), ("color", Value.str "blue")] initState).2 :=
  c6_natural_key_uniqueness
    (Reachable.create 32 {} (some emptyUI) .room
      [("name", Value.str "Kitchen"), ("color", Value.str "blue")] Reachable.init)

/-- A value that the interpolation step treats as an already-resolved id:
a Python int, or a string of one or more decimal digits (the
re.fullmatch of one-or-more-digits test). -/
def isIntLike (v : Value) : Bool :=
  match v with
  | .int _ => true
  | .str s => allDigits s
  | .null => false

/-- Side condition of one data entry for C9: the field is declared, has
no image/color/timestamp interpolation rule, and if it is a reference
field its value is an integer or a nonempty all-digit string. -/
def refFieldIntact (rt : RecType) (kv : String × Value) : Bool :=
  match fieldSpec rt kv.1 with
  | some spec => spec.interpolate = none && (!spec.references.isSome || isIntLike kv.2)
  | none => false

lemma dictFind_of_mem_keys (data : Dict) (k : String) (h : k ∈ dictKeys data) :
    ∃ v, dictFind data k = some v ∧ (k, v) ∈ data := by
  induction data with
  | nil => cases h
  | cons kv rest ih =>
    obtain ⟨k0, v0⟩ := kv
    by_cases hk : k0 = k
    · subst hk
      exact ⟨v0, by simp [dictFind], by simp⟩
    · have hmem : k ∈ dictKeys rest := by
        simpa [dictKeys, Ne.symm hk] using h
      obtain ⟨v, hv, hm⟩ := ih hmem
      exact ⟨v, by simp [dictFind, hk, hv], by simp [hm]⟩

lemma interpGo_intact (env : Env) (ui : UI) (rt : RecType) :
    ∀ (keys : List String) (fuel : Nat) (data : Dict) (st : DbState),
    keys.length ≤ fuel →
    (∀ k ∈ keys, ∃ v, dictFind data k = some v ∧ refFieldIntact rt (k, v) = true) →
    interpGo fuel env ui rt keys data st = (.ok data, st) := by
  intro keys
  induction keys with
  | nil => intro fuel data st _ _; exact interpGo_nil fuel env ui rt data st
  | cons k ks ih =>
    intro fuel data st hlen hok
    cases fuel with
    | zero => simp at hlen
    | succ f =>
      obtain ⟨v, hv, hintact⟩ := hok k (by simp)
      unfold refFieldIntact at hintact
      simp only [interpGo]
      cases hspec : fieldSpec rt k with
      | none => rw [hspec] at hintact; simp at hintact
      | some spec =>
        rw [hspec] at hintact
        simp only [Bool.and_eq_true, decide_eq_true_eq] at hintact
        obtain ⟨hinterp, href⟩ := hintact
        dsimp only
        have hstep1 : (match spec.references with
            | none => ((.ok data, st) : Except DbError Dict × DbState)
            | some ref =>
              match dictFind data k with
              | none => (.error (.keyError k), st)
              | some (.int _) => (.ok data, st)
              | some (.str s) =>
                if allDigits s then (.ok data, st)
                else
                  mapE (get_or_create f env ui ref s data st)
                    (fun rid => .ok (dictSet data k (.int rid)))
              | some .null => (.error .typeError, st)) = (.ok data, st) := by
          cases href' : spec.references with
          | none => rfl
          | some ref =>
            rw [href'] at href
            simp only [Option.isSome_some, Bool.not_true, Bool.false_or] at href
            rw [hv]
            cases v with
            | int n => rfl
            | str s =>
              simp only [isIntLike] at href
              dsimp only
              rw [if_pos href]
            | null => simp [isIntLike] at href
        rw [hstep1]
        simp only [bindE]
        rw [hinterp]
        simp only [bindE]
        exact ih f data st (by simpa using hlen) (fun k' hk' => hok k' (by simp [hk']))

/-- C9: during interpolation (as run by create and update), a
reference-field value that is an integer or a nonempty string of decimal
digits is never passed to get_or_create: when every entry of data is a
declared field without an interpolation rule whose reference value (if
any) is an integer or all-digit string, _interpolate_fields returns the
data unchanged — strings still strings — and the state untouched (no row
creation). -/
theorem c9_digit_strings_not_resolved (fuel : Nat) (env : Env) (ui : UI) (rt : RecType)
    (data : Dict) (st : DbState) (hlen : data.length ≤ fuel)
    (hok : ∀ kv ∈ data, refFieldIntact rt kv = true) :
    interpolate_fields fuel env ui rt data st = (.ok data, st) := by
  unfold interpolate_fields
  refine interpGo_intact env ui rt (dictKeys data) fuel data st ?_ ?_
  · simpa [dictKeys] using hlen
  · intro k hk
    obtain ⟨v, hv, hm⟩ := dictFind_of_mem_keys data k hk
    exact ⟨v, hv, hok (k, v) hm⟩

/-- C9 witness: a MovingBox data map whose room is the all-digit string
"12" and whose location is the integer 3 passes interpolation entirely
unchanged ("12" still a string), with no state change. -/
theorem c9_digit_strings_not_resolved_witness :
    ([("room", Value.str "12"), ("location", Value.int 3)] : Dict).length ≤ 2 ∧
    interpolate_fields 2 {} (some emptyUI) .movingBox
      [("room", Value.str "12"), ("location", Value.int 3)] initState
      = (.ok [("room", Value.str "12"), ("location", Value.int 3)], initState) :=
  ⟨by decide, c9_digit_strings_not_resolved 2 {} (some emptyUI) .movingBox
    [("room", Value.str "12"), ("location", Value.int 3)] initState
    (by decide) (by decide)⟩

/-- Prepared state shared by the C10 theorems: an existing Garage
location, a Kitchen room, user alice, and a project whose primary user
has id 1. -/
def c10State : DbState :=
  { location := [{ id := 1, fields := [("name", Value.str "Garage")] }],
    room := [{ id := 1, fields := [("name", Value.str "Kitchen"),
      ("color", Value.str "blue")] }],
    uriUser := [{ id := 1, fields := [("name", Value.str "alice")] }],
    moveProject := [{ id := 1, fields := [("primary_user", Value.int 1),
      ("title", Value.str "t"), ("found_contact", Value.str "c")] }] }

/-- C10 (counterexample): a successful create(Location, {name:"Garage"})
returns the caller's field map exactly equal to its pre-call value:
nothing was resolved, normalized or generated, so "the caller's
dictionary is not left equal to its pre-call value" is false as a
universal statement about successful creates. -/
theorem c10_counterexample :
    (db_create 32 {} (some emptyUI) .location [("name", Value.str "Garage")]
      initState).1 = .ok (1, [("name", Value.str "Garage")]) := by decide

/-- C10 (amended): create mutates the caller-supplied field map in place
— the map after a successful call carries the resolved foreign-key ids
and generated values — and it differs from the pre-call map whenever any
field was resolved or generated: create(MovingBox, {location:"Garage",
info:"books", room:"Kitchen"}) on c10State ends with location/room
resolved to integer ids and the generated user added, a map different
from the input; only a call with nothing to resolve (the Location
counterexample) leaves the map unchanged. -/
theorem c10_create_mutates_data :
    (db_create 32 {} (some emptyUI) .movingBox
      [("location", Value.str "Garage"), ("info", Value.str "books"),
       ("room", Value.str "Kitchen")] c10State).1
      = .ok (1, [("location", Value.int 1), ("info", Value.str "books"),
                 ("room", Value.int 1), ("user", Value.int 1)]) ∧
    ([("location", Value.int 1), ("info", Value.str "books"),
      ("room", Value.int 1), ("user", Value.int 1)] : Dict)
      ≠ [("location", Value.str "Garage"), ("info", Value.str "books"),
         ("room", Value.str "Kitchen")] := by decide

/-- State for the C3 counterexample: batch 1 moves to location 1 and both
scanned boxes already sit at location 1. -/
def c3Recommit : DbState :=
  { location := [{ id := 1, fields := [("name", Value.str "Garage")] }],
    batchMove := [{ id := 1, fields := [("timestamp", Value.str "t"),
      ("location", Value.int 1)] }],
    movingBox := [
      { id := 1, fields := [("location", Value.int 1), ("info", Value.str "a"),
        ("room", Value.int 1), ("user", Value.int 1), ("image", Value.null)] },
      { id := 2, fields := [("location", Value.int 1), ("info", Value.str "b"),
        ("room", Value.int 1), ("user", Value.int 1), ("image", Value.null)] }],
    boxScan := [
      { id := 1, fields := [("box", Value.int 1), ("batch", Value.int 1),
        ("user", Value.int 1), ("timestamp", Value.str "t")] },
      { id := 2, fields := [("box", Value.int 2), ("batch", Value.int 1),
        ("user", Value.int 1), ("timestamp", Value.str "t")] }] }

/-- C3 (counterexample): committing batch 1 a second time, when both
scanned boxes are already at the batch's location, returns success
(None), not the NoRecordsModified message with count 0: the UPDATE joins
and matches both boxes, and SQLite counts a matched row as modified even
when the stored value is unchanged, so rowcount is 2. -/
theorem c3_counterexample :
    commit (some emptyUI) [("id", Value.int 1)] c3Recommit = (.ok none, c3Recommit) ∧
    (Except.ok none : Except DbError (Option String))
      ≠ .ok (some "no records modified") := by decide

/-- C3 (amended): commit(batchId) updates, in one UPDATE statement, the
location of every moving_box referenced by a box_scan of the batch to the
batch's location, leaving other boxes as they are, and returns success
(None) whenever at least one box matches — even if the boxes were already
at that location; the "no records modified" message arises only when the
join matches no box (absent batch, or no scans).  The count of boxes is
used only for that zero test and is not reported to the caller. -/
theorem c3_commit_updates_scanned_boxes (u : UIModel) (data : Dict) (st : DbState)
    (b : Int) (br : Row)
    (hid : dictFind data "id" = some (Value.int b))
    (hbr : st.batchMove.find? (fun r => r.id = b) = some br)
    (hmatch : ∃ r ∈ st.movingBox, ∃ s ∈ st.boxScan,
      dictFind s.fields "batch" = some (Value.int b) ∧
      dictFind s.fields "box" = some (Value.int r.id)) :
    (commit (some u) data st).1 = .ok none ∧
    ∀ r ∈ st.movingBox,
      ((∃ s ∈ st.boxScan, dictFind s.fields "batch" = some (Value.int b) ∧
          dictFind s.fields "box" = some (Value.int r.id)) →
        ({ id := r.id, fields := dictSet r.fields "location"
            ((dictFind br.fields "location").getD .null) } : Row)
          ∈ (commit (some u) data st).2.movingBox) ∧
      ((¬∃ s ∈ st.boxScan, dictFind s.fields "batch" = some (Value.int b) ∧
          dictFind s.fields "box" = some (Value.int r.id)) →
        r ∈ (commit (some u) data st).2.movingBox) := by
  have hres : commit (some u) data st
      = (.ok none, { st with movingBox := st.movingBox.map (fun r =>
          if st.boxScan.any (fun s =>
              dictFind s.fields "batch" = some (Value.int b) &&
              dictFind s.fields "box" = some (Value.int r.id)) then
            { r with fields := (dictSet r.fields "location"
              ((dictFind br.fields "location").getD .null)) }
          else r) }) := by
    unfold commit
    rw [hid]
    dsimp only
    rw [if_neg (by simp : ¬((some u : UI).isNone = true))]
    rw [show affinity (Value.int b) = Value.int b from rfl]
    dsimp only
    rw [hbr]
    dsimp only
    rw [if_neg ?hcount]
    case hcount =>
      obtain ⟨r, hr, s, hs, hb, hx⟩ := hmatch
      have hrmem : r ∈ st.movingBox.filter (fun r => st.boxScan.any (fun s =>
          dictFind s.fields "batch" = some (Value.int b) &&
          dictFind s.fields "box" = some (Value.int r.id))) := by
        rw [List.mem_filter]
        exact ⟨hr, List.any_eq_true.mpr ⟨s, hs, by simp [hb, hx]⟩⟩
      intro hlen
      rw [List.length_eq_zero] at hlen
      rw [hlen] at hrmem
      cases hrmem
  rw [hres]
  refine ⟨rfl, ?_⟩
  intro r hr
  constructor
  · intro hex
    obtain ⟨s, hs, hb, hx⟩ := hex
    have hmem := List.mem_map_of_mem (f := fun r =>
      if st.boxScan.any (fun s =>
          dictFind s.fields "batch" = some (Value.int b) &&
          dictFind s.fields "box" = some (Value.int r.id)) then
        ({ r with fields := (dictSet r.fields "location"
          ((dictFind br.fields "location").getD .null)) } : Row)
      else r) hr
    dsimp only at hmem
    rw [if_pos (List.any_eq_true.mpr ⟨s, hs, by simp [hb, hx]⟩)] at hmem
    exact hmem
  · intro hnex
    have hmem := List.mem_map_of_mem (f := fun r =>
      if st.boxScan.any (fun s =>
          dictFind s.fields "batch" = some (Value.int b) &&
          dictFind s.fields "box" = some (Value.int r.id)) then
        ({ r with fields := (dictSet r.fields "location"
          ((dictFind br.fields "location").getD .null)) } : Row)
      else r) hr
    dsimp only at hmem
    rw [if_neg ?hno] at hmem
    case hno =>
      intro hany
      obtain ⟨s, hs, hps⟩ := List.any_eq_true.mp hany
      simp only [Bool.and_eq_true, decide_eq_true_eq] at hps
      exact hnex ⟨s, hs, hps.1, hps.2⟩
    exact hmem

/-- State for the C3 witness: the batch moves to location 1, the two
scanned boxes currently sit at location 2. -/
def c3Pending : DbState :=
  { location := [{ id := 1, fields := [("name", Value.str "Garage")] },
                 { id := 2, fields := [("name", Value.str "Origin")] }],
    batchMove := [{ id := 1, fields := [("timestamp", Value.str "t"),
      ("location", Value.int 1)] }],
    movingBox := [
      { id := 1, fields := [("location", Value.int 2), ("info", Value.str "a"),
        ("room", Value.int 1), ("user", Value.int 1), ("image", Value.null)] },
      { id := 2, fields := [("location", Value.int 2), ("info", Value.str "b"),
        ("room", Value.int 1), ("user", Value.int 1), ("image", Value.null)] }],
    boxScan := [
      { id := 1, fields := [("box", Value.int 1), ("batch", Value.int 1),
        ("user", Value.int 1), ("timestamp", Value.str "t")] },
      { id := 2, fields := [("box", Value.int 2), ("batch", Value.int 1),
        ("user", Value.int 1), ("timestamp", Value.str "t")] }] }

/-- C3 witness: committing the pending batch succeeds and relocates the
scanned boxes. -/
theorem c3_commit_updates_scanned_boxes_witness :
    (commit (some emptyUI) [("id", Value.int 1)] c3Pending).1 = .ok none ∧
    ∀ r ∈ c3Pending.movingBox,
      ((∃ s ∈ c3Pending.boxScan,
          dictFind s.fields "batch" = some (Value.int 1) ∧
          dictFind s.fields "box" = some (Value.int r.id)) →
        ({ id := r.id, fields := dictSet r.fields "location"
            ((dictFind { id := (1 : Int), fields := [("timestamp", Value.str "t"),
              ("location", Value.int 1)] : Row }.fields "location").getD .null) } : Row)
          ∈ (commit (some emptyUI) [("id", Value.int 1)] c3Pending).2.movingBox) ∧
      ((¬∃ s ∈ c3Pending.boxScan,
          dictFind s.fields "batch" = some (Value.int 1) ∧
          dictFind s.fields "box" = some (Value.int r.id)) →
        r ∈ (commit (some emptyUI) [("id", Value.int 1)] c3Pending).2.movingBox) :=
  c3_commit_updates_scanned_boxes emptyUI [("id", Value.int 1)] c3Pending 1
    { id := 1, fields := [("timestamp", Value.str "t"), ("location", Value.int 1)] }
    (by decide) (by decide) (by decide)

/-- Environment for the C2 counterexample: two source files with
identical byte content under different names. -/
def c2Env : Env := { srcFS := [("a/cat.jpg", "CONTENT"), ("b/dog.jpg", "CONTENT")] }

/-- C2 (counterexample): after creating an image from a/cat.jpg, a
get_or_create for b/dog.jpg (identical content, different filename)
returns the existing row's id and creates no new row — but it DOES place
a second symlink in the image directory before the hash lookup (imgdir
grows from 1 to 2 entries), refuting "no new file reference"; and
re-referencing the very same filename fails outright because the symlink
name already exists. -/
theorem c2_counterexample :
    (get_or_create 32 c2Env (some emptyUI) .image "b/dog.jpg" []
      (get_or_create 32 c2Env (some emptyUI) .image "a/cat.jpg" [] initState).2).1
      = .ok 1 ∧
    (get_or_create 32 c2Env (some emptyUI) .image "a/cat.jpg" [] initState).2.image.length
      = 1 ∧
    (get_or_create 32 c2Env (some emptyUI) .image "b/dog.jpg" []
      (get_or_create 32 c2Env (some emptyUI) .image "a/cat.jpg" [] initState).2).2.image.length
      = 1 ∧
    (get_or_create 32 c2Env (some emptyUI) .image "a/cat.jpg" [] initState).2.imgdir.length
      = 1 ∧
    (get_or_create 32 c2Env (some emptyUI) .image "b/dog.jpg" []
      (get_or_create 32 c2Env (some emptyUI) .image "a/cat.jpg" [] initState).2).2.imgdir.length
      = 2 ∧
    (get_or_create 32 c2Env (some emptyUI) .image "a/cat.jpg" []
      (get_or_create 32 c2Env (some emptyUI) .image "a/cat.jpg" [] initState).2).1
      = .error (.symlinkError "sha439849979_cat.jpg") := by decide

/-- C2 (amended): for a source file whose content digest matches an
existing Image row (the row being the first LIKE-match on the hash
column), image get_or_create returns that row's id and creates no new
row, but it first places one new symlink, digest_basename, in the image
directory — the call fails instead with a symlink error if that name is
already present.  Hence two records referencing identical content under
different filenames share one Image row and one id, at the cost of an
extra dangling symlink. -/
theorem c2_image_dedup (fuel : Nat) (env : Env) (u : UIModel) (ctx : Dict)
    (st : DbState) (p c : String) (r0 : Row)
    (hsrc : envRead env p = some c)
    (hlink : digestOf c ++ "_" ++ baseName p ∉ st.imgdir)
    (hrow : st.image.find? (fun r =>
      match dictFind r.fields "hash" with
      | some (.str s) => sqlLike (digestOf c) s
      | _ => false) = some r0) :
    get_or_create (fuel + 1) env (some u) .image p ctx st
      = (.ok r0.id,
         { st with imgdir := st.imgdir ++ [digestOf c ++ "_" ++ baseName p] }) := by
  have hgif : get_image_file env p st
      = (.ok (digestOf c ++ "_" ++ baseName p, (guessType p).1, (guessType p).2, digestOf c),
         { st with imgdir := st.imgdir ++ [digestOf c ++ "_" ++ baseName p] }) := by
    unfold get_image_file
    rw [hsrc]
    dsimp only
    rw [if_neg hlink]
  have hkv : kv_search (some u) .image "hash" (digestOf c)
      { st with imgdir := st.imgdir ++ [digestOf c ++ "_" ++ baseName p] }
      = .ok (some r0.id) := by
    unfold kv_search
    rw [if_neg (by simp : ¬((some u : UI).isNone = true))]
    show Except.ok ((st.image.find? _).map _) = _
    rw [hrow]
    rfl
  simp only [get_or_create]
  rw [if_neg (by simp [envExists, hsrc] : ¬(!envExists env p) = true)]
  rw [hgif]
  dsimp only
  rw [hkv]

/-- C2 witness: a store already holding the image row for content
"CONTENT" resolves a differently-named file of the same content to row
id 7, adding only the symlink. -/
theorem c2_image_dedup_witness :
    get_or_create 32 c2Env (some emptyUI) .image "b/dog.jpg" []
      { image := [{ id := 7, fields := [("image_file", Value.str "sha439849979_cat.jpg"),
          ("hash", Value.str "sha439849979"), ("mimetype", Value.str "image/jpeg"),
          ("encoding", Value.null), ("description", Value.null),
          ("timestamp", Value.str "1970-01-01 00:00:00Z")] }],
        imgdir := ["sha439849979_cat.jpg"] }
      = (.ok 7,
         { image := [{ id := 7, fields := [("image_file", Value.str "sha439849979_cat.jpg"),
             ("hash", Value.str "sha439849979"), ("mimetype", Value.str "image/jpeg"),
             ("encoding", Value.null), ("description", Value.null),
             ("timestamp", Value.str "1970-01-01 00:00:00Z")] }],
           imgdir := ["sha439849979_cat.jpg", "sha439849979_dog.jpg"] }) := by
  have h := c2_image_dedup 31 c2Env emptyUI []
    { image := [{ id := 7, fields := [("image_file", Value.str "sha439849979_cat.jpg"),
        ("hash", Value.str "sha439849979"), ("mimetype", Value.str "image/jpeg"),
        ("encoding", Value.null), ("description", Value.null),
        ("timestamp", Value.str "1970-01-01 00:00:00Z")] }],
      imgdir := ["sha439849979_cat.jpg"] }
    "b/dog.jpg" "CONTENT"
    { id := 7, fields := [("image_file", Value.str "sha439849979_cat.jpg"),
        ("hash", Value.str "sha439849979"), ("mimetype", Value.str "image/jpeg"),
        ("encoding", Value.null), ("description", Value.null),
        ("timestamp", Value.str "1970-01-01 00:00:00Z")] }
    (by decide) (by decide) (by decide)
  exact h.trans (by decide)

/-- Store already holding a room named KITCHEN (upper case). -/
def c1StateK : DbState :=
  { room := [{ id := 1, fields := [("name", Value.str "KITCHEN"),
      ("color", Value.str "white")] }] }

/-- C1 (counterexample): with "kitchen" not in the store but "KITCHEN"
present, get_or_create(Room, "kitchen", {color:"blue"}) resolves via SQL
LIKE — case-insensitive — to the existing KITCHEN row: the call returns
id 1 and leaves the state unchanged, so the second consecutive call is
the very same computation; afterwards ZERO rooms with the natural key
"kitchen" exist, not exactly one. -/
theorem c1_counterexample :
    get_or_create 32 {} (some emptyUI) .room "kitchen" [("color", Value.str "blue")]
      c1StateK = (.ok 1, c1StateK) ∧
    (c1StateK.room.filter (fun r =>
      dictFind r.fields "name" = some (Value.str "kitchen"))).length = 0 := by decide

lemma interpGo_cons_plain (fuel : Nat) (env : Env) (ui : UI) (rt : RecType)
    (k : String) (ks : List String) (data : Dict) (st : DbState) (spec : FieldSpec)
    (hspec : fieldSpec rt k = some spec) (href : spec.references = none)
    (hnoint : spec.interpolate = none) :
    interpGo (fuel + 1) env ui rt (k :: ks) data st
      = interpGo fuel env ui rt ks data st := by
  simp only [interpGo]
  rw [hspec]
  dsimp only
  rw [href]
  simp only [bindE]
  rw [hnoint]

lemma interpGo_cons_color (fuel : Nat) (env : Env) (ui : UI) (rt : RecType)
    (k : String) (ks : List String) (data : Dict) (st : DbState) (spec : FieldSpec)
    (s c : String)
    (hspec : fieldSpec rt k = some spec) (href : spec.references = none)
    (hcint : spec.interpolate = some .color)
    (hval : dictFind data k = some (.str s)) (hcol : interpolate_color s = .ok c) :
    interpGo (fuel + 1) env ui rt (k :: ks) data st
      = interpGo fuel env ui rt ks (dictSet data k (.str c)) st := by
  simp only [interpGo]
  rw [hspec]
  dsimp only
  rw [href]
  simp only [bindE]
  rw [hcint]
  dsimp only
  rw [hval]
  dsimp only
  rw [hcol]

lemma maxId_ge_init (rows : List Row) :
    ∀ a : Int, a ≤ rows.foldl (fun a r => max a r.id) a := by
  induction rows with
  | nil => intro a; exact le_refl a
  | cons r rest ih =>
    intro a
    exact le_trans (le_max_left a r.id) (ih (max a r.id))

lemma le_maxId (rows : List Row) (r : Row) (hr : r ∈ rows) : r.id ≤ maxId rows := by
  unfold maxId
  have haux : ∀ (l : List Row), r ∈ l →
      ∀ a : Int, r.id ≤ l.foldl (fun a r => max a r.id) a := by
    intro l
    induction l with
    | nil => intro h; cases h
    | cons x rest ih =>
      intro hmem a
      rcases List.mem_cons.mp hmem with h | h
      · subst h
        exact le_trans (le_max_right a r.id) (maxId_ge_init rest _)
      · exact ih h _
  exact haux rows hr 0

lemma find?_append_none {α : Type} (p : α → Bool) (l₁ l₂ : List α)
    (h : l₁.find? p = none) : (l₁ ++ l₂).find? p = l₂.find? p := by
  induction l₁ with
  | nil => rfl
  | cons x rest ih =>
    rw [List.cons_append]
    by_cases hpx : p x = true
    · rw [List.find?_cons_of_pos _ hpx] at h
      cases h
    · rw [List.find?_cons_of_neg _ (by simpa using hpx)] at h
      rw [List.find?_cons_of_neg _ (by simpa using hpx)]
      exact ih h

/-- A pattern LIKE-matches itself.  Proved together with the leading-%
variant needed for the backtracking step, under an explicit fuel bound. -/
lemma likeFuel_self_pair : ∀ cs : List Char,
    (∀ fuel, 2 * cs.length < fuel → likeFuel fuel cs cs = true) ∧
    (∀ fuel, 2 * cs.length + 1 < fuel → likeFuel fuel ('%' :: cs) cs = true) := by
  intro cs
  induction cs with
  | nil =>
    refine ⟨?_, ?_⟩
    · intro fuel h
      obtain ⟨f, rfl⟩ : ∃ f, fuel = f + 1 := ⟨fuel - 1, by omega⟩
      rfl
    · intro fuel h
      obtain ⟨f, rfl⟩ : ∃ f, fuel = f + 2 := ⟨fuel - 2, by omega⟩
      rfl
  | cons c cs ih =>
    obtain ⟨ihS, ihP⟩ := ih
    have hself : ∀ fuel, 2 * (c :: cs).length < fuel →
        likeFuel fuel (c :: cs) (c :: cs) = true := by
      intro fuel h
      obtain ⟨f, rfl⟩ : ∃ f, fuel = f + 1 := ⟨fuel - 1, by omega⟩
      have hlen : 2 * cs.length + 2 ≤ f := by
        simp only [List.length_cons] at h
        omega
      by_cases hc : c = '%'
      · subst hc
        simp only [likeFuel]
        rw [if_pos trivial]
        rw [ihP f (by omega)]
        rw [Bool.or_true]
      · by_cases hu : c = '_'
        · subst hu
          simp only [likeFuel]
          rw [if_pos trivial]
          exact ihS f (by omega)
        · simp only [likeFuel]
          rw [if_neg hc, if_neg hu]
          rw [ihS f (by omega)]
          simp
    refine ⟨hself, ?_⟩
    intro fuel h
    obtain ⟨f, rfl⟩ : ∃ f, fuel = f + 1 := ⟨fuel - 1, by omega⟩
    simp only [likeFuel]
    rw [if_pos trivial]
    rw [hself f (by omega)]
    rw [Bool.true_or]

/-- Every string LIKE-matches itself: sqlLike always supplies enough fuel. -/
lemma sqlLike_self (v : String) : sqlLike v v = true := by
  unfold sqlLike
  refine (likeFuel_self_pair v.data).1 _ ?_
  have hv : v.length = v.data.length := rfl
  omega

/-- When no stored name LIKE-matches v, no stored name equals v
(LIKE is reflexive). -/
lemma no_like_no_exact (v : String) (rows : List Row)
    (hnolike : ∀ r ∈ rows, ∀ s, dictFind r.fields "name" = some (Value.str s) →
      sqlLike v s = false) :
    ∀ r ∈ rows, ¬(dictFind r.fields "name" = some (Value.str v)) := by
  intro r hr hEq
  have h := hnolike r hr v hEq
  rw [sqlLike_self v] at h
  cases h

/-- Under the no-LIKE-match hypothesis the kv_search scan finds no row. -/
lemma find?_name_none (v : String) (rows : List Row)
    (hnolike : ∀ r ∈ rows, ∀ s, dictFind r.fields "name" = some (Value.str s) →
      sqlLike v s = false) :
    rows.find? (fun r =>
      match dictFind r.fields "name" with
      | some (.str s) => sqlLike v s
      | _ => false) = none := by
  apply List.find?_eq_none.mpr
  intro r hr
  cases hval : dictFind r.fields "name" with
  | none => simp
  | some w =>
    cases w with
    | int n => simp
    | str s => simpa using hnolike r hr s hval
    | null => simp

/-- Appending a row named v after a scan that found nothing makes the
scan find exactly the appended row. -/
lemma find?_name_appended (v : String) (rows : List Row) (row : Row)
    (hnone : rows.find? (fun r =>
      match dictFind r.fields "name" with
      | some (.str s) => sqlLike v s
      | _ => false) = none)
    (hname : dictFind row.fields "name" = some (Value.str v)) :
    (rows ++ [row]).find? (fun r =>
      match dictFind r.fields "name" with
      | some (.str s) => sqlLike v s
      | _ => false) = some row := by
  rw [find?_append_none _ _ _ hnone]
  rw [List.find?_cons_of_pos _ (by
    show (match dictFind row.fields "name" with
      | some (.str s) => sqlLike v s
      | _ => false) = true
    rw [hname]
    exact sqlLike_self v)]

/-- With a UI attached and no matching row, kv_search returns ok None. -/
lemma kv_search_name_none (u : UIModel) (rt : RecType) (v : String) (st : DbState)
    (hfind : (tableOf st rt).find? (fun r =>
      match dictFind r.fields "name" with
      | some (.str s) => sqlLike v s
      | _ => false) = none) :
    kv_search (some u) rt "name" v st = .ok none := by
  unfold kv_search
  rw [if_neg (by simp : ¬((some u : UI).isNone = true))]
  show Except.ok (((tableOf st rt).find? (fun r =>
    match dictFind r.fields "name" with
    | some (.str s) => sqlLike v s
    | _ => false)).map (fun r => r.id)) = _
  rw [hfind]
  rfl

/-- With a UI attached, kv_search returns the first matching row's id. -/
lemma kv_search_name_found (u : UIModel) (rt : RecType) (v : String) (st : DbState)
    (r0 : Row)
    (hfind : (tableOf st rt).find? (fun r =>
      match dictFind r.fields "name" with
      | some (.str s) => sqlLike v s
      | _ => false) = some r0) :
    kv_search (some u) rt "name" v st = .ok (some r0.id) := by
  unfold kv_search
  rw [if_neg (by simp : ¬((some u : UI).isNone = true))]
  show Except.ok (((tableOf st rt).find? (fun r =>
    match dictFind r.fields "name" with
    | some (.str s) => sqlLike v s
    | _ => false)).map (fun r => r.id)) = _
  rw [hfind]
  rfl

/-- The fresh rowid maxId+1 collides with no stored row's id. -/
lemma any_maxId_succ_not (rows : List Row) :
    ¬((rows.any (fun r => r.id = maxId rows + 1)) = true) := by
  intro hany
  obtain ⟨r, hr, hp⟩ := List.any_eq_true.mp hany
  simp only [decide_eq_true_eq] at hp
  have hle := le_maxId rows r hr
  omega

/-- UNIQUE(name) is satisfied when no stored row is named v. -/
lemma uqViol_name_none (rt : RecType) (v : String) (flds : Dict) (rows : List Row)
    (hu : uniqueCols rt = ["name"])
    (hf : dictFind flds "name" = some (Value.str v))
    (hnoexact : ∀ r ∈ rows, ¬(dictFind r.fields "name" = some (Value.str v))) :
    uqViol rt flds rows = none := by
  unfold uqViol
  rw [hu]
  apply List.find?_eq_none.mpr
  intro col hcol
  have hcol' : col = "name" := by simpa using hcol
  subst hcol'
  show ¬((match dictFind flds "name" with
    | some w => w ≠ Value.null && rows.any (fun r => dictFind r.fields "name" = some w)
    | none => false) = true)
  rw [hf]
  intro h
  rw [Bool.and_eq_true] at h
  obtain ⟨-, hany⟩ := h
  obtain ⟨r, hr, hp⟩ := List.any_eq_true.mp hany
  simp only [decide_eq_true_eq] at hp
  exact hnoexact r hr hp

/-- db_create on clean data: every pipeline stage passes unchanged and the
record is appended at the fresh rowid. -/
lemma db_create_plain (fuel : Nat) (env : Env) (u : UIModel) (rt : RecType)
    (data0 flds : Dict) (st : DbState)
    (hallow : check_allowed_fields rt data0 = [])
    (hpm : promptMissing (some u) rt data0 = data0)
    (hint : interpGo fuel env (some u) rt (dictKeys data0) data0 st = (.ok data0, st))
    (hgen : generateFields env rt data0 st = .ok data0)
    (hne : data0.isEmpty = false)
    (hcols : ((dictKeys data0).any (fun k => decide (k ∉ columns rt))) = false)
    (haff : applyAffinity rt data0 = data0)
    (hid : dictFind data0 "id" = none)
    (hbf : buildFields env rt data0 = flds)
    (hnn : nnViol rt flds = none)
    (huq : uqViol rt flds (tableOf st rt) = none)
    (hfk : fkViol st rt flds = false) :
    db_create (fuel + 1) env (some u) rt data0 st
      = (.ok (maxId (tableOf st rt) + 1, data0),
         setTable st rt (tableOf st rt ++ [(⟨maxId (tableOf st rt) + 1, flds⟩ : Row)])) := by
  have hins : insertRow env rt data0 st
      = (.ok (maxId (tableOf st rt) + 1),
         setTable st rt (tableOf st rt ++ [(⟨maxId (tableOf st rt) + 1, flds⟩ : Row)])) := by
    unfold insertRow
    rw [if_neg (by rw [hcols]; exact Bool.false_ne_true)]
    dsimp only
    rw [haff]
    rw [hid]
    dsimp only
    rw [hbf]
    rw [hnn]
    dsimp only
    rw [if_neg (any_maxId_succ_not (tableOf st rt))]
    rw [huq]
    rw [if_neg (by rw [hfk]; exact Bool.false_ne_true)]
  simp only [db_create]
  rw [if_neg (by rw [hallow]; exact fun hcon => hcon rfl)]
  rw [hpm]
  rw [hint]
  simp only [bindE]
  rw [hgen]
  dsimp only
  rw [if_neg (by rw [hne]; exact Bool.false_ne_true)]
  rw [if_neg (by simp : ¬((some u : UI).isNone = true))]
  rw [hins]
  rfl

/-- Exactly one row named v remains after appending it to rows in which
no row is named v. -/
lemma filter_name_append_one (v : String) (rows : List Row) (row : Row)
    (hnoexact : ∀ r ∈ rows, ¬(dictFind r.fields "name" = some (Value.str v)))
    (hname : dictFind row.fields "name" = some (Value.str v)) :
    ((rows ++ [row]).filter (fun r =>
      dictFind r.fields "name" = some (Value.str v))).length = 1 := by
  rw [List.filter_append]
  rw [show rows.filter (fun r =>
      dictFind r.fields "name" = some (Value.str v)) = [] from by
    rw [List.filter_eq_nil_iff]
    intro r hr
    simpa using hnoexact r hr]
  rw [List.filter_cons_of_pos (by exact decide_eq_true hname)]
  rfl

/-- C1 (amended): the natural-key lookup uses SQL LIKE, not exact match;
when no existing row of the target table LIKE-matches the value — no
case-insensitive or wildcard match, which in particular holds when the
table is empty — get-or-create is idempotent as claimed, for every
natural-key value v and each record type that supports it (Location,
Room, or User): with a UI whose prompt callback returns nothing when
prompted for nothing, two consecutive get_or_create(rt, v,
{color:"blue"}) calls (the context supplies Room's required color and
is ignored by Location and User) with no other writes in between return
the same id both times — the first call creates the row, the second
finds it and changes nothing — and exactly one row named v exists
afterwards. -/
theorem c1_get_or_create_idempotent (fuel : Nat) (env : Env) (st : DbState)
    (u : UIModel) (rt : RecType) (v : String)
    (hrt : rt = .location ∨ rt = .room ∨ rt = .uriUser)
    (hprompt : u.promptResp (table_name rt) [] = [])
    (hnolike : ∀ r ∈ tableOf st rt, ∀ s,
      dictFind r.fields "name" = some (Value.str s) → sqlLike v s = false) :
    ∃ rid st',
      get_or_create (fuel + 5) env (some u) rt v
        [("color", Value.str "blue")] st = (.ok rid, st') ∧
      get_or_create (fuel + 5) env (some u) rt v
        [("color", Value.str "blue")] st' = (.ok rid, st') ∧
      ((tableOf st' rt).filter (fun r =>
        dictFind r.fields "name" = some (Value.str v))).length = 1 := by
  have hnoexact := no_like_no_exact v (tableOf st rt) hnolike
  have hfind1 := find?_name_none v (tableOf st rt) hnolike
  have hkv1 : kv_search (some u) rt "name" v st = .ok none :=
    kv_search_name_none u rt v st hfind1
  rcases hrt with hrt | hrt | hrt <;> subst hrt
  · -- Location: get_or_create builds the minimal {name: v} record.
    have hpm : promptMissing (some u) .location [("name", Value.str v)]
        = [("name", Value.str v)] := by
      show (u.promptResp (table_name .location) []).foldl
        (fun d kv => dictSet d kv.1 kv.2) [("name", Value.str v)] = _
      rw [hprompt]
      rfl
    have hint : interpGo (fuel + 3) env (some u) .location ["name"]
        [("name", Value.str v)] st = (.ok [("name", Value.str v)], st) := by
      rw [show (fuel + 3) = (fuel + 2) + 1 from rfl]
      rw [interpGo_cons_plain (fuel + 2) env (some u) .location "name" []
        [("name", Value.str v)] st { required := true, hasPrompt := true } rfl rfl rfl]
      exact interpGo_nil (fuel + 2) env (some u) .location [("name", Value.str v)] st
    have hdb : db_create (fuel + 4) env (some u) .location [("name", Value.str v)] st
        = (.ok (maxId (tableOf st .location) + 1, [("name", Value.str v)]),
           setTable st .location (tableOf st .location ++
             [(⟨maxId (tableOf st .location) + 1, [("name", Value.str v)]⟩ : Row)])) :=
      db_create_plain (fuel + 3) env u .location [("name", Value.str v)]
        [("name", Value.str v)] st rfl hpm hint rfl rfl rfl rfl rfl rfl rfl
        (uqViol_name_none .location v [("name", Value.str v)] (tableOf st .location)
          rfl rfl hnoexact) rfl
    refine ⟨maxId (tableOf st .location) + 1,
      setTable st .location (tableOf st .location ++
        [(⟨maxId (tableOf st .location) + 1, [("name", Value.str v)]⟩ : Row)]),
      ?_, ?_, ?_⟩
    · rw [show (fuel + 5) = (fuel + 4) + 1 from rfl]
      simp only [get_or_create]
      rw [hkv1]
      dsimp only
      rw [hdb]
      rfl
    · have hfind2 := find?_name_appended v (tableOf st .location)
        (⟨maxId (tableOf st .location) + 1, [("name", Value.str v)]⟩ : Row) hfind1 rfl
      have hkv2 : kv_search (some u) .location "name" v
          (setTable st .location (tableOf st .location ++
            [(⟨maxId (tableOf st .location) + 1, [("name", Value.str v)]⟩ : Row)]))
          = .ok (some (maxId (tableOf st .location) + 1)) :=
        kv_search_name_found u .location v
          (setTable st .location (tableOf st .location ++
            [(⟨maxId (tableOf st .location) + 1, [("name", Value.str v)]⟩ : Row)]))
          (⟨maxId (tableOf st .location) + 1, [("name", Value.str v)]⟩ : Row) hfind2
      rw [show (fuel + 5) = (fuel + 4) + 1 from rfl]
      simp only [get_or_create]
      rw [hkv2]
    · exact filter_name_append_one v (tableOf st .location)
        (⟨maxId (tableOf st .location) + 1, [("name", Value.str v)]⟩ : Row) hnoexact rfl
  · -- Room: get_or_create copies the context's color and sets name := v.
    have hpm : promptMissing (some u) .room
        [("color", Value.str "blue"), ("name", Value.str v)]
        = [("color", Value.str "blue"), ("name", Value.str v)] := by
      show (u.promptResp (table_name .room) []).foldl (fun d kv => dictSet d kv.1 kv.2)
        [("color", Value.str "blue"), ("name", Value.str v)] = _
      rw [hprompt]
      rfl
    have hint : interpGo (fuel + 3) env (some u) .room ["color", "name"]
        [("color", Value.str "blue"), ("name", Value.str v)] st
        = (.ok [("color", Value.str "blue"), ("name", Value.str v)], st) := by
      rw [show (fuel + 3) = (fuel + 2) + 1 from rfl]
      rw [interpGo_cons_color (fuel + 2) env (some u) .room "color" ["name"]
        [("color", Value.str "blue"), ("name", Value.str v)] st
        { required := true, hasPrompt := true, interpolate := some .color }
        "blue" "blue" rfl rfl rfl rfl (by decide)]
      rw [show dictSet [("color", Value.str "blue"), ("name", Value.str v)]
        "color" (Value.str "blue")
        = [("color", Value.str "blue"), ("name", Value.str v)] from rfl]
      rw [show (fuel + 2) = (fuel + 1) + 1 from rfl]
      rw [interpGo_cons_plain (fuel + 1) env (some u) .room "name" []
        [("color", Value.str "blue"), ("name", Value.str v)] st
        { required := true, hasPrompt := true } rfl rfl rfl]
      exact interpGo_nil (fuel + 1) env (some u) .room
        [("color", Value.str "blue"), ("name", Value.str v)] st
    have hdb : db_create (fuel + 4) env (some u) .room
        [("color", Value.str "blue"), ("name", Value.str v)] st
        = (.ok (maxId (tableOf st .room) + 1,
            [("color", Value.str "blue"), ("name", Value.str v)]),
           setTable st .room (tableOf st .room ++
             [(⟨maxId (tableOf st .room) + 1,
                [("name", Value.str v), ("color", Value.str "blue")]⟩ : Row)])) :=
      db_create_plain (fuel + 3) env u .room
        [("color", Value.str "blue"), ("name", Value.str v)]
        [("name", Value.str v), ("color", Value.str "blue")] st
        rfl hpm hint rfl rfl rfl rfl rfl rfl rfl
        (uqViol_name_none .room v [("name", Value.str v), ("color", Value.str "blue")]
          (tableOf st .room) rfl rfl hnoexact) rfl
    refine ⟨maxId (tableOf st .room) + 1,
      setTable st .room (tableOf st .room ++
        [(⟨maxId (tableOf st .room) + 1,
           [("name", Value.str v), ("color", Value.str "blue")]⟩ : Row)]),
      ?_, ?_, ?_⟩
    · rw [show (fuel + 5) = (fuel + 4) + 1 from rfl]
      simp only [get_or_create]
      rw [hkv1]
      dsimp only
      rw [show dictSet ((fields .room).filterMap (fun key =>
          (dictFind [("color", Value.str "blue")] key).map (fun val => (key, val))))
          "name" (Value.str v)
        = [("color", Value.str "blue"), ("name", Value.str v)] from rfl]
      rw [hdb]
      rfl
    · have hfind2 := find?_name_appended v (tableOf st .room)
        (⟨maxId (tableOf st .room) + 1,
          [("name", Value.str v), ("color", Value.str "blue")]⟩ : Row) hfind1 rfl
      have hkv2 : kv_search (some u) .room "name" v
          (setTable st .room (tableOf st .room ++
            [(⟨maxId (tableOf st .room) + 1,
               [("name", Value.str v), ("color", Value.str "blue")]⟩ : Row)]))
          = .ok (some (maxId (tableOf st .room) + 1)) :=
        kv_search_name_found u .room v
          (setTable st .room (tableOf st .room ++
            [(⟨maxId (tableOf st .room) + 1,
               [("name", Value.str v), ("color", Value.str "blue")]⟩ : Row)]))
          (⟨maxId (tableOf st .room) + 1,
            [("name", Value.str v), ("color", Value.str "blue")]⟩ : Row) hfind2
      rw [show (fuel + 5) = (fuel + 4) + 1 from rfl]
      simp only [get_or_create]
      rw [hkv2]
    · exact filter_name_append_one v (tableOf st .room)
        (⟨maxId (tableOf st .room) + 1,
          [("name", Value.str v), ("color", Value.str "blue")]⟩ : Row) hnoexact rfl
  · -- URIUser: same minimal {name: v} record as Location.
    have hpm : promptMissing (some u) .uriUser [("name", Value.str v)]
        = [("name", Value.str v)] := by
      show (u.promptResp (table_name .uriUser) []).foldl
        (fun d kv => dictSet d kv.1 kv.2) [("name", Value.str v)] = _
      rw [hprompt]
      rfl
    have hint : interpGo (fuel + 3) env (some u) .uriUser ["name"]
        [("name", Value.str v)] st = (.ok [("name", Value.str v)], st) := by
      rw [show (fuel + 3) = (fuel + 2) + 1 from rfl]
      rw [interpGo_cons_plain (fuel + 2) env (some u) .uriUser "name" []
        [("name", Value.str v)] st { required := true, hasPrompt := true } rfl rfl rfl]
      exact interpGo_nil (fuel + 2) env (some u) .uriUser [("name", Value.str v)] st
    have hdb : db_create (fuel + 4) env (some u) .uriUser [("name", Value.str v)] st
        = (.ok (maxId (tableOf st .uriUser) + 1, [("name", Value.str v)]),
           setTable st .uriUser (tableOf st .uriUser ++
             [(⟨maxId (tableOf st .uriUser) + 1, [("name", Value.str v)]⟩ : Row)])) :=
      db_create_plain (fuel + 3) env u .uriUser [("name", Value.str v)]
        [("name", Value.str v)] st rfl hpm hint rfl rfl rfl rfl rfl rfl rfl
        (uqViol_name_none .uriUser v [("name", Value.str v)] (tableOf st .uriUser)
          rfl rfl hnoexact) rfl
    refine ⟨maxId (tableOf st .uriUser) + 1,
      setTable st .uriUser (tableOf st .uriUser ++
        [(⟨maxId (tableOf st .uriUser) + 1, [("name", Value.str v)]⟩ : Row)]),
      ?_, ?_, ?_⟩
    · rw [show (fuel + 5) = (fuel + 4) + 1 from rfl]
      simp only [get_or_create]
      rw [hkv1]
      dsimp only
      rw [hdb]
      rfl
    · have hfind2 := find?_name_appended v (tableOf st .uriUser)
        (⟨maxId (tableOf st .uriUser) + 1, [("name", Value.str v)]⟩ : Row) hfind1 rfl
      have hkv2 : kv_search (some u) .uriUser "name" v
          (setTable st .uriUser (tableOf st .uriUser ++
            [(⟨maxId (tableOf st .uriUser) + 1, [("name", Value.str v)]⟩ : Row)]))
          = .ok (some (maxId (tableOf st .uriUser) + 1)) :=
        kv_search_name_found u .uriUser v
          (setTable st .uriUser (tableOf st .uriUser ++
            [(⟨maxId (tableOf st .uriUser) + 1, [("name", Value.str v)]⟩ : Row)]))
          (⟨maxId (tableOf st .uriUser) + 1, [("name", Value.str v)]⟩ : Row) hfind2
      rw [show (fuel + 5) = (fuel + 4) + 1 from rfl]
      simp only [get_or_create]
      rw [hkv2]
    · exact filter_name_append_one v (tableOf st .uriUser)
        (⟨maxId (tableOf st .uriUser) + 1, [("name", Value.str v)]⟩ : Row) hnoexact rfl

/-- C1 witness: from the empty store, two consecutive Room calls for
"Kitchen" create then find the room with id 1. -/
theorem c1_get_or_create_idempotent_witness :
    ∃ rid st',
      get_or_create 32 {} (some emptyUI) .room "Kitchen"
        [("color", Value.str "blue")] initState = (.ok rid, st') ∧
      get_or_create 32 {} (some emptyUI) .room "Kitchen"
        [("color", Value.str "blue")] st' = (.ok rid, st') ∧
      ((tableOf st' .room).filter (fun r =>
        dictFind r.fields "name" = some (Value.str "Kitchen"))).length = 1 :=
  c1_get_or_create_idempotent 27 {} initState emptyUI .room "Kitchen"
    (Or.inr (Or.inl rfl)) rfl (by intro r hr; cases hr)

end MBT
